import Mathlib

/-!
Verification of the day-classification core of Timeline-2-Office-Day-Counter.

Shallow embedding conventions:

* Python `str` values are modelled as `List Char` (`PyStr`): Python strings are
  sequences of Unicode code points, compared and sliced pointwise.
* Python `float` values are modelled as exact rationals `ℚ`.  The claims under
  verification depend on float values only through order comparisons, never on
  rounding behaviour.
* The functions of the Python `math` module used by `haversine_distance`
  (`sin`, `cos`, `sqrt`, `atan2`, `radians`) are standard-library externals; we
  model them as an abstract bundle of rational functions (`PyMath`) over which
  all theorems quantify.
* `datetime.fromisoformat` is a standard-library external.  A timestamp string
  is modelled by its parse result `Option DateTime`: `none` stands for an empty
  or unparseable `startTime` (both contribute nothing to any accumulator in the
  source), `some dt` for a string that parses to the naive components of `dt`.
  All downstream uses in the source (`.strftime('%Y-%m-%d')`, `.time()`,
  `.strftime('%A')`, `.year`) read the literal components, never the UTC
  offset, so the offset is not modelled.
* Python's builtin `int(...)` and `float(...)` on plain decimal literals are
  modelled by `pyInt` / `pyFloat` below (exponent and `inf`/`nan` forms are
  outside the inputs the claims quantify over).
-/

/-- A Python string: a list of Unicode code points. -/
abbrev PyStr := List Char

/-- Models Python `str.strip()`: drop whitespace from both ends. -/
def pyStrip (s : PyStr) : PyStr :=
  ((s.dropWhile Char.isWhitespace).reverse.dropWhile Char.isWhitespace).reverse

/-- Models Python `str.split(sep)` for a one-character separator.  Note that
`''.split(',') == ['']`, and a trailing separator yields a trailing `''`. -/
def pySplit (sep : Char) : PyStr → List PyStr
  | [] => [[]]
  | c :: cs =>
    if c = sep then [] :: pySplit sep cs
    else
      match pySplit sep cs with
      | [] => [[c]]
      | h :: t => (c :: h) :: t

/-- Models Python `str.replace(c, '')`: remove every occurrence of `c`. -/
def pyRemove (c : Char) (s : PyStr) : PyStr :=
  s.filter (fun x => decide (x ≠ c))

/-- Numeric value of a decimal digit character. -/
def digitVal (c : Char) : Nat := c.toNat - 48

/-- Value of a string of decimal digits (most significant first). -/
def digitsVal (s : PyStr) : Nat :=
  s.foldl (fun acc c => acc * 10 + digitVal c) 0

/-- Parse a nonempty all-digit string to its value, `none` otherwise. -/
def pyDigits (s : PyStr) : Option Nat :=
  if s ≠ [] ∧ s.all Char.isDigit = true then some (digitsVal s) else none

/-- Models Python's builtin `int(...)` on decimal-literal strings: optional
surrounding whitespace, optional sign, then a nonempty digit string. -/
def pyInt (s : PyStr) : Option Int :=
  match pyStrip s with
  | [] => none
  | c :: rest =>
    if c = '+' then (pyDigits rest).map (fun n => (n : Int))
    else if c = '-' then (pyDigits rest).map (fun n => -(n : Int))
    else (pyDigits (c :: rest)).map (fun n => (n : Int))

/-- Unsigned part of a decimal float literal: `digits`, `digits.`, `.digits`
or `digits.digits` (at least one digit overall). -/
def pyFloatMag (s : PyStr) : Option ℚ :=
  let ip := s.takeWhile Char.isDigit
  let rest := s.dropWhile Char.isDigit
  match rest with
  | [] => if ip = [] then none else some (digitsVal ip)
  | '.' :: fp =>
    if fp.all Char.isDigit = true ∧ (ip ≠ [] ∨ fp ≠ []) then
      some ((digitsVal ip : ℚ) + (digitsVal fp : ℚ) / (10 : ℚ) ^ fp.length)
    else none
  | _ => none

/-- Models Python's builtin `float(...)` on plain decimal literals: optional
surrounding whitespace, optional sign, decimal magnitude. -/
def pyFloat (s : PyStr) : Option ℚ :=
  match pyStrip s with
  | [] => none
  | c :: rest =>
    if c = '+' then pyFloatMag rest
    else if c = '-' then (pyFloatMag rest).map Neg.neg
    else pyFloatMag (c :: rest)

/-- Embedding of `utils.parse_latlng` (src/utils.py lines 23-31): strip all
degree signs, split on `','`, strip and float-parse the first two fields.  Any
failure (fewer than two fields, i.e. the `parts[1]` IndexError, or a float
ValueError) is caught by the bare `except` and becomes the failure value
(`(None, None)` in the source, `none` here). -/
def parse_latlng (latlng_string : PyStr) : Option (ℚ × ℚ) :=
  match pySplit ',' (pyRemove '°' latlng_string) with
  | parts0 :: parts1 :: _ =>
    match pyFloat (pyStrip parts0), pyFloat (pyStrip parts1) with
    | some lat, some lng => some (lat, lng)
    | _, _ => none
  | _ => none

/-- The time-of-day component of a parsed timestamp, as compared by Python
`datetime.time` ordering (lexicographic on hour, minute, second; the source's
window bounds always carry second 0, so microseconds are not modelled). -/
structure PyTime where
  hour : Nat
  minute : Nat
  second : Nat
deriving DecidableEq, Repr

/-- Lexicographic order on times, as used by Python `time <= time`. -/
def timeLe (a b : PyTime) : Prop :=
  a.hour < b.hour ∨
    (a.hour = b.hour ∧
      (a.minute < b.minute ∨ (a.minute = b.minute ∧ a.second ≤ b.second)))

instance (a b : PyTime) : Decidable (timeLe a b) := by
  unfold timeLe; infer_instance

/-- The naive components of a successfully parsed ISO-8601 timestamp (the
result of `datetime.fromisoformat(ts.replace('Z', '+00:00'))` in the source).
Only the fields that the source actually reads are modelled. -/
structure DateTime where
  year : Nat
  month : Nat
  day : Nat
  hour : Nat
  minute : Nat
  second : Nat
deriving DecidableEq, Repr

/-- Wall-clock time component, `dt.time()` in the source. -/
def DateTime.time (dt : DateTime) : PyTime :=
  ⟨dt.hour, dt.minute, dt.second⟩

/-- Character for a decimal digit value. -/
def natDigit (n : Nat) : Char := Char.ofNat (48 + n)

/-- Two-digit zero-padded decimal rendering (`%02d`, `%m`, `%d`, `%H`, `%M`). -/
def pad2 (n : Nat) : PyStr := [natDigit (n / 10 % 10), natDigit (n % 10)]

/-- Four-digit zero-padded decimal rendering (`%Y` for the years in scope). -/
def pad4 (n : Nat) : PyStr :=
  [natDigit (n / 1000 % 10), natDigit (n / 100 % 10),
   natDigit (n / 10 % 10), natDigit (n % 10)]

/-- Day key serialization, `dt.strftime('%Y-%m-%d')` in the source. -/
def formatDate (y m d : Nat) : PyStr :=
  pad4 y ++ '-' :: pad2 m ++ '-' :: pad2 d

/-- Gregorian leap-year test (as implemented by Python's `datetime.date`). -/
def isLeapYear (y : Nat) : Bool :=
  (y % 4 == 0 && y % 100 != 0) || y % 400 == 0

/-- Number of days in a month of a given year. -/
def daysInMonth (y m : Nat) : Nat :=
  if m = 2 then (if isLeapYear y then 29 else 28)
  else if m = 4 ∨ m = 6 ∨ m = 9 ∨ m = 11 then 30
  else 31

/-- Weekday index of a Gregorian date, with 0 = Wednesday (chosen so that the
index is `(days since 0000-03-01) % 7` under the standard civil day count). -/
def dayOfWeekIndex (y m d : Nat) : Nat :=
  let yAdj := if m ≤ 2 then y - 1 else y
  let era := yAdj / 400
  let yoe := yAdj % 400
  let mp := if m ≤ 2 then m + 9 else m - 3
  let doy := (153 * mp + 2) / 5 + (d - 1)
  let doe := yoe * 365 + yoe / 4 - yoe / 100 + doy
  (era * 146097 + doe) % 7

/-- English weekday names indexed by `dayOfWeekIndex` (0 = Wednesday). -/
def weekdayNames : List PyStr :=
  [String.toList "Wednesday", String.toList "Thursday", String.toList "Friday",
   String.toList "Saturday", String.toList "Sunday", String.toList "Monday",
   String.toList "Tuesday"]

/-- Weekday name of a date, `dt.strftime('%A')` in the source. -/
def dayName (y m d : Nat) : PyStr :=
  weekdayNames.getD (dayOfWeekIndex y m d) []

/-- Embedding of `utils.get_year_from_timestamp` (src/utils.py lines 62-68):
year of the parsed timestamp, `none` on parse failure. -/
def get_year_from_timestamp (ts : Option DateTime) : Option Nat :=
  match ts with
  | none => none
  | some dt => some dt.year

/-- Embedding of `utils.is_working_day` (src/utils.py lines 52-59): whether the
timestamp's weekday name is in the configured list; parse failure gives
`false`. -/
def is_working_day (ts : Option DateTime) (days_of_week : List PyStr) : Bool :=
  match ts with
  | none => false
  | some dt => decide (dayName dt.year dt.month dt.day ∈ days_of_week)

/-- Window parsing inside `utils.is_within_working_hours` (src/utils.py lines
40-45): unpack `working_hours.split('-')` into exactly two parts (otherwise a
ValueError), unpack each part's `split(':')` into exactly two `int(...)` calls,
then re-validate through `strptime(f"{h:02d}:{m:02d}", "%H:%M")`, which
succeeds iff `0 ≤ h ≤ 23` and `0 ≤ m ≤ 59` (a negative value renders with a
minus sign and a value ≥ 24 resp. ≥ 60 is rejected by `%H`/`%M`). -/
def parseWindow (working_hours : PyStr) : Option (PyTime × PyTime) :=
  match pySplit '-' working_hours with
  | [start_str, end_str] =>
    match pySplit ':' start_str, pySplit ':' end_str with
    | [sh, sm], [eh, em] =>
      match pyInt sh, pyInt sm, pyInt eh, pyInt em with
      | some a, some b, some c, some d =>
        if 0 ≤ a ∧ a < 24 ∧ 0 ≤ b ∧ b < 60 ∧ 0 ≤ c ∧ c < 24 ∧ 0 ≤ d ∧ d < 60 then
          some (⟨a.toNat, b.toNat, 0⟩, ⟨c.toNat, d.toNat, 0⟩)
        else none
      | _, _, _, _ => none
    | _, _ => none
  | _ => none

/-- Embedding of `utils.is_within_working_hours` (src/utils.py lines 34-49):
true iff the timestamp parses, the window string parses and validates, and the
wall-clock time lies in `[start, end]` (both comparisons are `<=` in the
source).  Any failure inside the `try` yields `false`. -/
def is_within_working_hours (ts : Option DateTime) (working_hours : PyStr) : Bool :=
  match ts with
  | none => false
  | some dt =>
    match parseWindow working_hours with
    | none => false
    | some (start_time, end_time) =>
      decide (timeLe start_time dt.time) && decide (timeLe dt.time end_time)

/-- All `(month, day)` pairs of a year, in calendar order: the dates visited by
the `current_date += timedelta(days=1)` loop from Jan 1 to Dec 31. -/
def allDatesInYear (y : Nat) : List (Nat × Nat) :=
  (List.range 12).flatMap fun m0 =>
    (List.range (daysInMonth y (m0 + 1))).map fun d0 => (m0 + 1, d0 + 1)

/-- Embedding of `utils.get_all_working_days_in_year` (src/utils.py lines
71-84): the set of day keys of every date of the year whose weekday name is in
`days_of_week`. -/
def get_all_working_days_in_year (year : Nat) (days_of_week : List PyStr) :
    Finset PyStr :=
  (((allDatesInYear year).filter
      (fun p => decide (dayName year p.1 p.2 ∈ days_of_week))).map
    (fun p => formatDate year p.1 p.2)).toFinset

/-- Abstract model of the Python `math` module functions used by
`haversine_distance` (floating-point externals; the claims depend on distances
only through order comparisons, so all theorems quantify over this bundle). -/
structure PyMath where
  sin : ℚ → ℚ
  cos : ℚ → ℚ
  sqrt : ℚ → ℚ
  atan2 : ℚ → ℚ → ℚ
  radians : ℚ → ℚ

/-- Embedding of `utils.haversine_distance` (src/utils.py lines 8-20). -/
def haversine_distance (M : PyMath) (lat1 lon1 lat2 lon2 : ℚ) : ℚ :=
  let R : ℚ := 6371000
  let phi1 := M.radians lat1
  let phi2 := M.radians lat2
  let delta_phi := M.radians (lat2 - lat1)
  let delta_lambda := M.radians (lon2 - lon1)
  let a := M.sin (delta_phi / 2) ^ 2 +
    M.cos phi1 * M.cos phi2 * M.sin (delta_lambda / 2) ^ 2
  let c := 2 * M.atan2 (M.sqrt a) (M.sqrt (1 - a))
  R * c

/-- One timeline segment, at the level of detail the classifiers read:
`isVisit` is whether the JSON object has a `'visit'` key; `startTime` is the
parse result of its `startTime` string (`none` for an empty or unparseable
string — either way the segment contributes nothing in the source);
`latLng` is `visit.topCandidate.placeLocation.latLng` (empty when any level is
absent, per the chained `.get(..., {})` defaults); `semanticType` is
`visit.topCandidate.semanticType` (empty when absent). -/
structure Segment where
  isVisit : Bool
  startTime : Option DateTime
  latLng : PyStr
  semanticType : PyStr

/-- The configuration dict consumed by `categorize_days` (src/main.py).
`calendar_year = none` models a falsy `CALENDAR_YEAR`. -/
structure CoordConfig where
  calendar_year : Option Nat
  working_hours : PyStr
  days_of_week : List PyStr
  office_lat : ℚ
  office_lng : ℚ
  home_lat : ℚ
  home_lng : ℚ
  radius : ℚ

/-- The configuration dict consumed by `categorize_days_simple`
(src/main_simple.py). -/
structure TagConfig where
  calendar_year : Option Nat
  working_hours : PyStr
  days_of_week : List PyStr
  work_types : List PyStr
  home_types : List PyStr

/-- Contribution of a single segment to the five accumulators of the
`categorize_days` loop.  The loop body only ever inserts into the four day
sets and min-updates the distance dict, so it is fully described by these
optional contributions. -/
structure SegEffect where
  dataKey : Option PyStr
  whvKey : Option PyStr
  officeKey : Option PyStr
  homeKey : Option PyStr
  minEntry : Option (PyStr × ℚ)

/-- The loop body of `categorize_days` (src/main.py lines 65-140) for one
segment, written as its contribution to each accumulator.  The cascade of
early `continue`s in the source appears as the nesting of cases: a segment
that fails a check contributes nothing beyond the marks already made. -/
def coordEffect (M : PyMath) (cfg : CoordConfig) (seg : Segment) : SegEffect :=
  -- line 67: `if 'visit' not in segment: continue`
  if seg.isVisit = false then ⟨none, none, none, none, none⟩ else
  match seg.startTime with
  -- line 73 `if not start_time` and the line 86-90 parse failure `continue`:
  -- an empty or unparseable startTime contributes nothing either way
  | none => ⟨none, none, none, none, none⟩
  | some dt =>
    -- lines 77-81: skip segments whose year differs from the configured year
    if (match cfg.calendar_year with
        | some y => decide (dt.year ≠ y)
        | none => false) then ⟨none, none, none, none, none⟩ else
    -- line 88: `date_str = dt.strftime('%Y-%m-%d')`
    let date_str := formatDate dt.year dt.month dt.day
    -- line 93: skip non-working days (before the has-data mark)
    if is_working_day (some dt) cfg.days_of_week = false then
      ⟨none, none, none, none, none⟩ else
    -- line 97: `days_with_data.add(date_str)`
    -- line 100: skip segments outside working hours
    if is_within_working_hours (some dt) cfg.working_hours = false then
      ⟨some date_str, none, none, none, none⟩ else
    -- line 104: `days_with_working_hour_visits.add(date_str)`
    -- line 112: `if not latlng: continue`
    if seg.latLng.isEmpty then ⟨some date_str, some date_str, none, none, none⟩ else
    -- lines 115-117: skip on coordinate parse failure
    match parse_latlng seg.latLng with
    | none => ⟨some date_str, some date_str, none, none, none⟩
    | some (lat, lng) =>
      -- lines 120-129: distances to office and home
      let office_distance :=
        haversine_distance M lat lng cfg.office_lat cfg.office_lng
      let home_distance :=
        haversine_distance M lat lng cfg.home_lat cfg.home_lng
      -- lines 131-134: min-update of day_min_distances
      let min_distance := min office_distance home_distance
      -- lines 136-140: office/home categorization, office checked first
      if office_distance ≤ cfg.radius then
        ⟨some date_str, some date_str, some date_str, none,
          some (date_str, min_distance)⟩
      else if home_distance ≤ cfg.radius then
        ⟨some date_str, some date_str, none, some date_str,
          some (date_str, min_distance)⟩
      else
        ⟨some date_str, some date_str, none, none, some (date_str, min_distance)⟩

/-- Contribution of a single segment to the three accumulators of the
`categorize_days_simple` loop. -/
structure TagEffect where
  dataKey : Option PyStr
  officeKey : Option PyStr
  homeKey : Option PyStr

/-- The loop body of `categorize_days_simple` (src/main_simple.py lines
62-111) for one segment, as its contribution to each accumulator. -/
def tagEffect (cfg : TagConfig) (seg : Segment) : TagEffect :=
  if seg.isVisit = false then ⟨none, none, none⟩ else
  match seg.startTime with
  | none => ⟨none, none, none⟩
  | some dt =>
    if (match cfg.calendar_year with
        | some y => decide (dt.year ≠ y)
        | none => false) then ⟨none, none, none⟩ else
    let date_str := formatDate dt.year dt.month dt.day
    if is_working_day (some dt) cfg.days_of_week = false then ⟨none, none, none⟩ else
    -- line 93: `days_with_data.add(date_str)`
    if is_within_working_hours (some dt) cfg.working_hours = false then
      ⟨some date_str, none, none⟩ else
    -- line 104: `if not semantic_type: continue`
    if seg.semanticType.isEmpty then ⟨some date_str, none, none⟩ else
    -- lines 108-111: work tags beat home tags for a single segment
    if decide (seg.semanticType ∈ cfg.work_types) then
      ⟨some date_str, some date_str, none⟩
    else if decide (seg.semanticType ∈ cfg.home_types) then
      ⟨some date_str, none, some date_str⟩
    else ⟨some date_str, none, none⟩

/-- Insert the key carried by an optional contribution, if any. -/
def optInsert (o : Option PyStr) (s : Finset PyStr) : Finset PyStr :=
  match o with
  | none => s
  | some k => insert k s

/-- Lookup in the `day_min_distances` dict (modelled as an association list in
insertion order). -/
def dmdFind : List (PyStr × ℚ) → PyStr → Option ℚ
  | [], _ => none
  | (k, v) :: t, d => if k = d then some v else dmdFind t d

/-- Assignment `m[k] = v` on the dict model. -/
def dmdSet : List (PyStr × ℚ) → PyStr → ℚ → List (PyStr × ℚ)
  | [], k, v => [(k, v)]
  | (k', v') :: t, k, v =>
    if k' = k then (k, v) :: t else (k', v') :: dmdSet t k v

/-- The min-update of src/main.py lines 133-134:
`if date_str not in m or min_distance < m[date_str]: m[date_str] = min_distance`. -/
def dmdUpdate (m : List (PyStr × ℚ)) (k : PyStr) (v : ℚ) : List (PyStr × ℚ) :=
  match dmdFind m k with
  | none => dmdSet m k v
  | some cur => if v < cur then dmdSet m k v else m

/-- Accumulator state of the `categorize_days` loop
(src/main.py lines 54-60). -/
structure CoordState where
  office_days : Finset PyStr
  home_days : Finset PyStr
  days_with_data : Finset PyStr
  days_with_working_hour_visits : Finset PyStr
  day_min_distances : List (PyStr × ℚ)

/-- Apply one segment's contribution to the loop state. -/
def coordStep (M : PyMath) (cfg : CoordConfig) (st : CoordState) (seg : Segment) :
    CoordState :=
  let e := coordEffect M cfg seg
  { office_days := optInsert e.officeKey st.office_days
    home_days := optInsert e.homeKey st.home_days
    days_with_data := optInsert e.dataKey st.days_with_data
    days_with_working_hour_visits := optInsert e.whvKey st.days_with_working_hour_visits
    day_min_distances :=
      match e.minEntry with
      | none => st.day_min_distances
      | some (k, v) => dmdUpdate st.day_min_distances k v }

/-- State after the whole pass of `categorize_days` over the segment list. -/
def coordFinalState (M : PyMath) (cfg : CoordConfig) (segments : List Segment) :
    CoordState :=
  segments.foldl (coordStep M cfg) ⟨∅, ∅, ∅, ∅, []⟩

/-- Accumulator state of the `categorize_days_simple` loop
(src/main_simple.py lines 55-57). -/
structure TagState where
  office_days : Finset PyStr
  home_days : Finset PyStr
  days_with_data : Finset PyStr

/-- Apply one segment's contribution to the tag-mode loop state. -/
def tagStep (cfg : TagConfig) (st : TagState) (seg : Segment) : TagState :=
  let e := tagEffect cfg seg
  { office_days := optInsert e.officeKey st.office_days
    home_days := optInsert e.homeKey st.home_days
    days_with_data := optInsert e.dataKey st.days_with_data }

/-- State after the whole pass of `categorize_days_simple`. -/
def tagFinalState (cfg : TagConfig) (segments : List Segment) : TagState :=
  segments.foldl (tagStep cfg) ⟨∅, ∅, ∅⟩

/-- Lexicographic order on `PyStr`, as used by Python `sorted` on strings
(pointwise comparison of code points, shorter string first on ties). -/
def strLe : PyStr → PyStr → Prop
  | [], _ => True
  | _ :: _, [] => False
  | a :: as, b :: bs => a < b ∨ (a = b ∧ strLe as bs)

instance strLeDecidable : ∀ (a b : PyStr), Decidable (strLe a b)
  | [], _ => isTrue trivial
  | _ :: _, [] => isFalse fun h => h
  | _ :: as, _ :: bs =>
    have : Decidable (strLe as bs) := strLeDecidable as bs
    inferInstanceAs (Decidable (_ ∨ _))

theorem strLe_trans : ∀ {a b c : PyStr}, strLe a b → strLe b c → strLe a c
  | [], _, _, _, _ => trivial
  | _ :: _, [], _, hab, _ => absurd hab not_false
  | _ :: _, _ :: _, [], _, hbc => absurd hbc not_false
  | a :: as, b :: bs, c :: cs, hab, hbc => by
    rcases hab with hab | ⟨rfl, hab⟩ <;> rcases hbc with hbc | ⟨rfl, hbc⟩
    · exact Or.inl (lt_trans hab hbc)
    · exact Or.inl hab
    · exact Or.inl hbc
    · exact Or.inr ⟨rfl, strLe_trans hab hbc⟩

theorem strLe_antisymm : ∀ {a b : PyStr}, strLe a b → strLe b a → a = b
  | [], [], _, _ => rfl
  | [], _ :: _, _, hba => absurd hba not_false
  | _ :: _, [], hab, _ => absurd hab not_false
  | a :: as, b :: bs, hab, hba => by
    rcases hab with hab | ⟨hab1, hab2⟩
    · rcases hba with hba | ⟨hba1, _⟩
      · exact absurd hba (lt_asymm hab)
      · rw [hba1] at hab; exact absurd hab (lt_irrefl _)
    · subst hab1
      rcases hba with hba | ⟨_, hba2⟩
      · exact absurd hba (lt_irrefl _)
      · exact congrArg (a :: ·) (strLe_antisymm hab2 hba2)

theorem strLe_total : ∀ (a b : PyStr), strLe a b ∨ strLe b a
  | [], _ => Or.inl trivial
  | _ :: _, [] => Or.inr trivial
  | a :: as, b :: bs => by
    rcases lt_trichotomy a b with h | rfl | h
    · exact Or.inl (Or.inl h)
    · rcases strLe_total as bs with h | h
      · exact Or.inl (Or.inr ⟨rfl, h⟩)
      · exact Or.inr (Or.inr ⟨rfl, h⟩)
    · exact Or.inr (Or.inl h)

instance : IsTrans PyStr strLe := ⟨fun _ _ _ => strLe_trans⟩

instance : IsAntisymm PyStr strLe := ⟨fun _ _ => strLe_antisymm⟩

instance : IsTotal PyStr strLe := ⟨strLe_total⟩

/-- Models Python `sorted(set_of_day_keys)`: the elements of the set listed in
ascending lexicographic string order. -/
def sortKeys (s : Finset PyStr) : List PyStr := s.sort strLe

/-- The `elsewhere_breakdown` lists (src/main.py lines 156-161). -/
structure Tiers where
  tierLocal : List PyStr
  tierRegional : List PyStr
  tierNational : List PyStr
  tierInternational : List PyStr

/-- One iteration of the breakdown loop (src/main.py lines 163-173): look the
day up in `day_min_distances`, convert to kilometers, append to the matching
tier list.  A day with no recorded distance is appended nowhere. -/
def tierStep (dmd : List (PyStr × ℚ)) (b : Tiers) (day : PyStr) : Tiers :=
  match dmdFind dmd day with
  | none => b
  | some dist =>
    let distance_km := dist / 1000
    if distance_km < 50 then { b with tierLocal := b.tierLocal ++ [day] }
    else if distance_km < 150 then { b with tierRegional := b.tierRegional ++ [day] }
    else if distance_km < 500 then { b with tierNational := b.tierNational ++ [day] }
    else { b with tierInternational := b.tierInternational ++ [day] }

/-- The aggregation sets of `categorize_days` (src/main.py lines 143-153). -/
def home_only_days (M : PyMath) (cfg : CoordConfig) (segments : List Segment) :
    Finset PyStr :=
  (coordFinalState M cfg segments).home_days \
    (coordFinalState M cfg segments).office_days

/-- Elsewhere set of `categorize_days` (src/main.py line 146). -/
def elsewhere_days (M : PyMath) (cfg : CoordConfig) (segments : List Segment) :
    Finset PyStr :=
  ((coordFinalState M cfg segments).days_with_working_hour_visits \
    (coordFinalState M cfg segments).office_days) \ home_only_days M cfg segments

/-- Missing set of `categorize_days` (src/main.py lines 151-153): computed only
when a calendar year is configured. -/
def missing_days (M : PyMath) (cfg : CoordConfig) (segments : List Segment) :
    Finset PyStr :=
  match cfg.calendar_year with
  | some y =>
    get_all_working_days_in_year y cfg.days_of_week \
      (coordFinalState M cfg segments).days_with_working_hour_visits
  | none => ∅

/-- The result dict of `categorize_days` (src/main.py lines 180-186): four
sorted lists plus the four breakdown lists. -/
structure CoordResult where
  office : List PyStr
  home : List PyStr
  elsewhere : List PyStr
  missing : List PyStr
  tierLocal : List PyStr
  tierRegional : List PyStr
  tierNational : List PyStr
  tierInternational : List PyStr

/-- Embedding of `main.categorize_days` (src/main.py lines 32-186), minus the
excluded I/O shell: the segment list stands for `data['semanticSegments']`.
The breakdown loop `for day in elsewhere_days` iterates a Python *set*, whose
order CPython leaves unspecified (string hashing is even randomized per run);
`elsewhereIter` makes that enumeration order an explicit input, constrained in
theorems to list exactly the elements of the elsewhere set. -/
def categorize_days (M : PyMath) (cfg : CoordConfig) (segments : List Segment)
    (elsewhereIter : List PyStr) : CoordResult :=
  let st := coordFinalState M cfg segments
  let bk := elsewhereIter.foldl (tierStep st.day_min_distances) ⟨[], [], [], []⟩
  { office := sortKeys st.office_days
    home := sortKeys (home_only_days M cfg segments)
    elsewhere := sortKeys (elsewhere_days M cfg segments)
    missing := sortKeys (missing_days M cfg segments)
    tierLocal := bk.tierLocal
    tierRegional := bk.tierRegional
    tierNational := bk.tierNational
    tierInternational := bk.tierInternational }

/-- The aggregation sets of `categorize_days_simple`
(src/main_simple.py lines 113-120). -/
def home_only_days_simple (cfg : TagConfig) (segments : List Segment) :
    Finset PyStr :=
  (tagFinalState cfg segments).home_days \ (tagFinalState cfg segments).office_days

/-- Elsewhere set of `categorize_days_simple` (src/main_simple.py line 115):
note the base set is `days_with_data`, not the working-hours set. -/
def elsewhere_days_simple (cfg : TagConfig) (segments : List Segment) :
    Finset PyStr :=
  ((tagFinalState cfg segments).days_with_data \
    (tagFinalState cfg segments).office_days) \ home_only_days_simple cfg segments

/-- Missing set of `categorize_days_simple` (src/main_simple.py lines
118-120). -/
def missing_days_simple (cfg : TagConfig) (segments : List Segment) :
    Finset PyStr :=
  match cfg.calendar_year with
  | some y =>
    get_all_working_days_in_year y cfg.days_of_week \
      (tagFinalState cfg segments).days_with_data
  | none => ∅

/-- The result dict of `categorize_days_simple`
(src/main_simple.py lines 127-132). -/
structure TagResult where
  office : List PyStr
  home : List PyStr
  elsewhere : List PyStr
  missing : List PyStr

/-- Embedding of `main_simple.categorize_days_simple`
(src/main_simple.py lines 33-132), minus the excluded I/O shell. -/
def categorize_days_simple (cfg : TagConfig) (segments : List Segment) :
    TagResult :=
  { office := sortKeys (tagFinalState cfg segments).office_days
    home := sortKeys (home_only_days_simple cfg segments)
    elsewhere := sortKeys (elsewhere_days_simple cfg segments)
    missing := sortKeys (missing_days_simple cfg segments) }

/-! Characterization of the pass: membership in each accumulator after the
fold is existence of a contributing segment. -/

theorem mem_foldl_optInsert {α : Type _} (f : α → Option PyStr) :
    ∀ (l : List α) (init : Finset PyStr) (d : PyStr),
      d ∈ l.foldl (fun acc x => optInsert (f x) acc) init ↔
        d ∈ init ∨ ∃ x ∈ l, f x = some d
  | [], init, d => by simp
  | x :: l, init, d => by
    rw [List.foldl_cons, mem_foldl_optInsert f l]
    cases h : f x with
    | none => simp [optInsert, h]
    | some k =>
      simp only [optInsert, h, Finset.mem_insert, List.mem_cons]
      constructor
      · rintro ((rfl | hd) | ⟨s, hs, hfs⟩)
        · exact Or.inr ⟨x, Or.inl rfl, h⟩
        · exact Or.inl hd
        · exact Or.inr ⟨s, Or.inr hs, hfs⟩
      · rintro (hd | ⟨s, rfl | hs, hfs⟩)
        · exact Or.inl (Or.inr hd)
        · exact Or.inl (Or.inl (by rw [h] at hfs; exact (Option.some_inj.mp hfs).symm))
        · exact Or.inr ⟨s, hs, hfs⟩

theorem coordFold_office (M : PyMath) (cfg : CoordConfig) :
    ∀ (l : List Segment) (st : CoordState),
      (l.foldl (coordStep M cfg) st).office_days =
        l.foldl (fun acc seg => optInsert ((coordEffect M cfg seg).officeKey) acc)
          st.office_days
  | [], _ => rfl
  | seg :: l, st => coordFold_office M cfg l (coordStep M cfg st seg)

theorem coordFold_home (M : PyMath) (cfg : CoordConfig) :
    ∀ (l : List Segment) (st : CoordState),
      (l.foldl (coordStep M cfg) st).home_days =
        l.foldl (fun acc seg => optInsert ((coordEffect M cfg seg).homeKey) acc)
          st.home_days
  | [], _ => rfl
  | seg :: l, st => coordFold_home M cfg l (coordStep M cfg st seg)

theorem coordFold_data (M : PyMath) (cfg : CoordConfig) :
    ∀ (l : List Segment) (st : CoordState),
      (l.foldl (coordStep M cfg) st).days_with_data =
        l.foldl (fun acc seg => optInsert ((coordEffect M cfg seg).dataKey) acc)
          st.days_with_data
  | [], _ => rfl
  | seg :: l, st => coordFold_data M cfg l (coordStep M cfg st seg)

theorem coordFold_whv (M : PyMath) (cfg : CoordConfig) :
    ∀ (l : List Segment) (st : CoordState),
      (l.foldl (coordStep M cfg) st).days_with_working_hour_visits =
        l.foldl (fun acc seg => optInsert ((coordEffect M cfg seg).whvKey) acc)
          st.days_with_working_hour_visits
  | [], _ => rfl
  | seg :: l, st => coordFold_whv M cfg l (coordStep M cfg st seg)

theorem mem_coord_office (M : PyMath) (cfg : CoordConfig) (segments : List Segment)
    (d : PyStr) :
    d ∈ (coordFinalState M cfg segments).office_days ↔
      ∃ s ∈ segments, (coordEffect M cfg s).officeKey = some d := by
  unfold coordFinalState
  rw [coordFold_office, mem_foldl_optInsert]
  simp

theorem mem_coord_home (M : PyMath) (cfg : CoordConfig) (segments : List Segment)
    (d : PyStr) :
    d ∈ (coordFinalState M cfg segments).home_days ↔
      ∃ s ∈ segments, (coordEffect M cfg s).homeKey = some d := by
  unfold coordFinalState
  rw [coordFold_home, mem_foldl_optInsert]
  simp

theorem mem_coord_data (M : PyMath) (cfg : CoordConfig) (segments : List Segment)
    (d : PyStr) :
    d ∈ (coordFinalState M cfg segments).days_with_data ↔
      ∃ s ∈ segments, (coordEffect M cfg s).dataKey = some d := by
  unfold coordFinalState
  rw [coordFold_data, mem_foldl_optInsert]
  simp

theorem mem_coord_whv (M : PyMath) (cfg : CoordConfig) (segments : List Segment)
    (d : PyStr) :
    d ∈ (coordFinalState M cfg segments).days_with_working_hour_visits ↔
      ∃ s ∈ segments, (coordEffect M cfg s).whvKey = some d := by
  unfold coordFinalState
  rw [coordFold_whv, mem_foldl_optInsert]
  simp

theorem tagFold_office (cfg : TagConfig) :
    ∀ (l : List Segment) (st : TagState),
      (l.foldl (tagStep cfg) st).office_days =
        l.foldl (fun acc seg => optInsert ((tagEffect cfg seg).officeKey) acc)
          st.office_days
  | [], _ => rfl
  | seg :: l, st => tagFold_office cfg l (tagStep cfg st seg)

theorem tagFold_home (cfg : TagConfig) :
    ∀ (l : List Segment) (st : TagState),
      (l.foldl (tagStep cfg) st).home_days =
        l.foldl (fun acc seg => optInsert ((tagEffect cfg seg).homeKey) acc)
          st.home_days
  | [], _ => rfl
  | seg :: l, st => tagFold_home cfg l (tagStep cfg st seg)

theorem tagFold_data (cfg : TagConfig) :
    ∀ (l : List Segment) (st : TagState),
      (l.foldl (tagStep cfg) st).days_with_data =
        l.foldl (fun acc seg => optInsert ((tagEffect cfg seg).dataKey) acc)
          st.days_with_data
  | [], _ => rfl
  | seg :: l, st => tagFold_data cfg l (tagStep cfg st seg)

theorem mem_tag_office (cfg : TagConfig) (segments : List Segment) (d : PyStr) :
    d ∈ (tagFinalState cfg segments).office_days ↔
      ∃ s ∈ segments, (tagEffect cfg s).officeKey = some d := by
  unfold tagFinalState
  rw [tagFold_office, mem_foldl_optInsert]
  simp

theorem mem_tag_home (cfg : TagConfig) (segments : List Segment) (d : PyStr) :
    d ∈ (tagFinalState cfg segments).home_days ↔
      ∃ s ∈ segments, (tagEffect cfg s).homeKey = some d := by
  unfold tagFinalState
  rw [tagFold_home, mem_foldl_optInsert]
  simp

theorem mem_tag_data (cfg : TagConfig) (segments : List Segment) (d : PyStr) :
    d ∈ (tagFinalState cfg segments).days_with_data ↔
      ∃ s ∈ segments, (tagEffect cfg s).dataKey = some d := by
  unfold tagFinalState
  rw [tagFold_data, mem_foldl_optInsert]
  simp

/-! Characterization of the `day_min_distances` dict: after the pass, the
value recorded for a day is the minimum of all per-segment contributions. -/

/-- Minimum of two optional values (`none` is the identity). -/
def optMinQ : Option ℚ → Option ℚ → Option ℚ
  | none, b => b
  | some a, none => some a
  | some a, some b => some (min a b)

/-- Minimum of a list of rationals, `none` for the empty list. -/
def listMinQ : List ℚ → Option ℚ
  | [] => none
  | v :: t => optMinQ (some v) (listMinQ t)

theorem optMinQ_none_right : ∀ (a : Option ℚ), optMinQ a none = a
  | none => rfl
  | some _ => rfl

theorem optMinQ_comm : ∀ (a b : Option ℚ), optMinQ a b = optMinQ b a
  | none, none => rfl
  | none, some _ => rfl
  | some _, none => rfl
  | some a, some b => by simp [optMinQ, min_comm]

theorem optMinQ_assoc : ∀ (a b c : Option ℚ),
    optMinQ (optMinQ a b) c = optMinQ a (optMinQ b c)
  | none, _, _ => rfl
  | some _, none, _ => rfl
  | some _, some _, none => rfl
  | some a, some b, some c => by simp [optMinQ, min_assoc]

/-- Distance contributions of the segment list to a given day: the values
min-folded into `day_min_distances[day]` during the pass. -/
def minContribs (M : PyMath) (cfg : CoordConfig) (segments : List Segment)
    (day : PyStr) : List ℚ :=
  segments.filterMap fun s =>
    match (coordEffect M cfg s).minEntry with
    | none => none
    | some (k, v) => if k = day then some v else none

theorem dmdFind_dmdSet_self : ∀ (m : List (PyStr × ℚ)) (k : PyStr) (v : ℚ),
    dmdFind (dmdSet m k v) k = some v
  | [], k, v => by simp [dmdSet, dmdFind]
  | (k', v') :: t, k, v => by
    by_cases h : k' = k
    · simp [dmdSet, h, dmdFind]
    · simp [dmdSet, h, dmdFind, dmdFind_dmdSet_self t k v]

theorem dmdFind_dmdSet_ne : ∀ (m : List (PyStr × ℚ)) (k : PyStr) (v : ℚ)
    (d : PyStr), k ≠ d → dmdFind (dmdSet m k v) d = dmdFind m d
  | [], k, v, d, h => by simp [dmdSet, dmdFind, h]
  | (k', v') :: t, k, v, d, h => by
    by_cases hk : k' = k
    · subst hk
      simp [dmdSet, dmdFind, h]
    · simp only [dmdSet, if_neg hk]
      by_cases hd : k' = d
      · simp [dmdFind, hd]
      · simp [dmdFind, hd, dmdFind_dmdSet_ne t k v d h]

theorem dmdFind_dmdUpdate_self (m : List (PyStr × ℚ)) (k : PyStr) (v : ℚ) :
    dmdFind (dmdUpdate m k v) k = optMinQ (some v) (dmdFind m k) := by
  unfold dmdUpdate
  cases h : dmdFind m k with
  | none => simp [dmdFind_dmdSet_self, optMinQ]
  | some cur =>
    by_cases hlt : v < cur
    · simp [hlt, dmdFind_dmdSet_self, optMinQ, min_eq_left (le_of_lt hlt)]
    · simp [hlt, h, optMinQ, min_eq_right (le_of_not_lt hlt)]

theorem dmdFind_dmdUpdate_ne (m : List (PyStr × ℚ)) (k : PyStr) (v : ℚ)
    (d : PyStr) (h : k ≠ d) : dmdFind (dmdUpdate m k v) d = dmdFind m d := by
  unfold dmdUpdate
  cases dmdFind m k with
  | none => exact dmdFind_dmdSet_ne m k v d h
  | some cur =>
    by_cases hlt : v < cur
    · simp [hlt, dmdFind_dmdSet_ne m k v d h]
    · simp [hlt]

theorem dmdFind_coordFold (M : PyMath) (cfg : CoordConfig) :
    ∀ (l : List Segment) (st : CoordState) (day : PyStr),
      dmdFind (l.foldl (coordStep M cfg) st).day_min_distances day =
        optMinQ (dmdFind st.day_min_distances day)
          (listMinQ (minContribs M cfg l day))
  | [], st, day => by simp [minContribs, listMinQ, optMinQ_none_right]
  | seg :: l, st, day => by
    rw [List.foldl_cons, dmdFind_coordFold M cfg l (coordStep M cfg st seg) day]
    have hstep : (coordStep M cfg st seg).day_min_distances =
        match (coordEffect M cfg seg).minEntry with
        | none => st.day_min_distances
        | some (k, v) => dmdUpdate st.day_min_distances k v := rfl
    cases h : (coordEffect M cfg seg).minEntry with
    | none =>
      rw [hstep, h]
      have : minContribs M cfg (seg :: l) day = minContribs M cfg l day := by
        simp [minContribs, List.filterMap_cons, h]
      rw [this]
    | some kv =>
      obtain ⟨k, v⟩ := kv
      rw [hstep, h]
      by_cases hk : k = day
      · subst hk
        rw [dmdFind_dmdUpdate_self]
        have : minContribs M cfg (seg :: l) k = v :: minContribs M cfg l k := by
          simp [minContribs, List.filterMap_cons, h]
        rw [this, listMinQ,
          optMinQ_comm (some v) (dmdFind st.day_min_distances k), optMinQ_assoc]
      · rw [dmdFind_dmdUpdate_ne _ _ _ _ hk]
        have : minContribs M cfg (seg :: l) day = minContribs M cfg l day := by
          simp [minContribs, List.filterMap_cons, h, hk]
        rw [this]

/-- The recorded minimum for a day after the whole pass. -/
theorem dmdFind_final (M : PyMath) (cfg : CoordConfig) (segments : List Segment)
    (day : PyStr) :
    dmdFind (coordFinalState M cfg segments).day_min_distances day =
      listMinQ (minContribs M cfg segments day) := by
  unfold coordFinalState
  rw [dmdFind_coordFold]
  rfl

/-! Characterization of the breakdown loop: each tier list is the sub-list of
the iteration order selected by the day's recorded minimum distance. -/

/-- Selector for the `'local'` bucket (src/main.py lines 166-167). -/
def inLocalTier (dmd : List (PyStr × ℚ)) (day : PyStr) : Bool :=
  match dmdFind dmd day with
  | some q => decide (q / 1000 < 50)
  | none => false

/-- Selector for the `'regional'` bucket (src/main.py lines 168-169). -/
def inRegionalTier (dmd : List (PyStr × ℚ)) (day : PyStr) : Bool :=
  match dmdFind dmd day with
  | some q => decide (¬ q / 1000 < 50 ∧ q / 1000 < 150)
  | none => false

/-- Selector for the `'national'` bucket (src/main.py lines 170-171). -/
def inNationalTier (dmd : List (PyStr × ℚ)) (day : PyStr) : Bool :=
  match dmdFind dmd day with
  | some q => decide (¬ q / 1000 < 50 ∧ ¬ q / 1000 < 150 ∧ q / 1000 < 500)
  | none => false

/-- Selector for the `'international'` bucket (src/main.py lines 172-173). -/
def inInternationalTier (dmd : List (PyStr × ℚ)) (day : PyStr) : Bool :=
  match dmdFind dmd day with
  | some q => decide (¬ q / 1000 < 50 ∧ ¬ q / 1000 < 150 ∧ ¬ q / 1000 < 500)
  | none => false

theorem tierFold_spec (dmd : List (PyStr × ℚ)) :
    ∀ (iter : List PyStr) (b : Tiers),
      iter.foldl (tierStep dmd) b =
        ⟨b.tierLocal ++ iter.filter (inLocalTier dmd),
         b.tierRegional ++ iter.filter (inRegionalTier dmd),
         b.tierNational ++ iter.filter (inNationalTier dmd),
         b.tierInternational ++ iter.filter (inInternationalTier dmd)⟩
  | [], b => by simp
  | day :: iter, b => by
    rw [List.foldl_cons, tierFold_spec dmd iter]
    cases h : dmdFind dmd day with
    | none =>
      simp [tierStep, h, inLocalTier, inRegionalTier, inNationalTier,
        inInternationalTier, List.filter_cons]
    | some q =>
      by_cases h1 : q / 1000 < 50
      · simp [tierStep, h, h1, inLocalTier, inRegionalTier, inNationalTier,
          inInternationalTier, List.filter_cons]
      · by_cases h2 : q / 1000 < 150
        · simp [tierStep, h, h1, h2, inLocalTier, inRegionalTier, inNationalTier,
            inInternationalTier, List.filter_cons]
        · by_cases h3 : q / 1000 < 500
          · simp [tierStep, h, h1, h2, h3, inLocalTier, inRegionalTier,
              inNationalTier, inInternationalTier, List.filter_cons]
          · simp [tierStep, h, h1, h2, h3, inLocalTier, inRegionalTier,
              inNationalTier, inInternationalTier, List.filter_cons]

/-! Projections of the result records, and membership in the sorted lists. -/

theorem mem_sortKeys (s : Finset PyStr) (d : PyStr) : d ∈ sortKeys s ↔ d ∈ s :=
  Finset.mem_sort strLe

theorem categorize_days_office (M : PyMath) (cfg : CoordConfig)
    (segments : List Segment) (elsewhereIter : List PyStr) :
    (categorize_days M cfg segments elsewhereIter).office =
      sortKeys (coordFinalState M cfg segments).office_days := rfl

theorem categorize_days_home (M : PyMath) (cfg : CoordConfig)
    (segments : List Segment) (elsewhereIter : List PyStr) :
    (categorize_days M cfg segments elsewhereIter).home =
      sortKeys (home_only_days M cfg segments) := rfl

theorem categorize_days_elsewhere (M : PyMath) (cfg : CoordConfig)
    (segments : List Segment) (elsewhereIter : List PyStr) :
    (categorize_days M cfg segments elsewhereIter).elsewhere =
      sortKeys (elsewhere_days M cfg segments) := rfl

theorem categorize_days_missing (M : PyMath) (cfg : CoordConfig)
    (segments : List Segment) (elsewhereIter : List PyStr) :
    (categorize_days M cfg segments elsewhereIter).missing =
      sortKeys (missing_days M cfg segments) := rfl

theorem categorize_days_simple_office (cfg : TagConfig) (segments : List Segment) :
    (categorize_days_simple cfg segments).office =
      sortKeys (tagFinalState cfg segments).office_days := rfl

theorem categorize_days_simple_home (cfg : TagConfig) (segments : List Segment) :
    (categorize_days_simple cfg segments).home =
      sortKeys (home_only_days_simple cfg segments) := rfl

theorem categorize_days_simple_elsewhere (cfg : TagConfig) (segments : List Segment) :
    (categorize_days_simple cfg segments).elsewhere =
      sortKeys (elsewhere_days_simple cfg segments) := rfl

theorem categorize_days_simple_missing (cfg : TagConfig) (segments : List Segment) :
    (categorize_days_simple cfg segments).missing =
      sortKeys (missing_days_simple cfg segments) := rfl

/-! Concrete data used by the witness theorems. -/

/-- The working-weekday list hard-coded in both entry points. -/
def DAYS_OF_WEEK : List PyStr :=
  [String.toList "Monday", String.toList "Tuesday", String.toList "Wednesday",
   String.toList "Thursday", String.toList "Friday"]

/-- The semantic types counted as office in src/main_simple.py. -/
def WORK_TYPES : List PyStr := [String.toList "WORK", String.toList "INFERRED_WORK"]

/-- The semantic types counted as home in src/main_simple.py. -/
def HOME_TYPES : List PyStr := [String.toList "HOME", String.toList "INFERRED_HOME"]

/-- A math-module instance making every haversine distance 0 m. -/
def mathZero : PyMath := ⟨fun _ => 0, fun _ => 0, fun _ => 0, fun _ _ => 0, fun x => x⟩

/-- A math-module instance making every haversine distance 80 000 m
(6371000 · 2 · (40000 / 6371000)). -/
def math80km : PyMath :=
  ⟨fun _ => 0, fun _ => 0, fun _ => 0, fun _ _ => 40000 / 6371000, fun x => x⟩

/-- Wednesday 2025-01-01, 09:30 local. -/
def dtWed : DateTime := ⟨2025, 1, 1, 9, 30, 0⟩

/-- A visit segment on `dtWed` with a parseable coordinate and a WORK tag. -/
def segWed : Segment :=
  ⟨true, some dtWed, String.toList "52.52°, 13.40°", String.toList "WORK"⟩

/-- Coordinate-mode test configuration (no year filter, radius 100 m). -/
def cfgCoord : CoordConfig :=
  ⟨none, String.toList "9:00-18:00", DAYS_OF_WEEK, 0, 0, 0, 0, 100⟩

/-- Tag-mode test configuration (no year filter). -/
def cfgTag : TagConfig :=
  ⟨none, String.toList "9:00-18:00", DAYS_OF_WEEK, WORK_TYPES, HOME_TYPES⟩

/-- Day key of `dtWed`. -/
def keyWed : PyStr := String.toList "2025-01-01"

example : keyWed ∈ (categorize_days_simple cfgTag [segWed]).office := by
  rw [categorize_days_simple_office, mem_sortKeys]; decide

example : dayName 2025 1 1 = String.toList "Wednesday" := by decide

example : keyWed ∈ elsewhere_days_simple cfgTag
    [⟨true, some dtWed, [], String.toList "OTHER"⟩] := by decide

/-! Extensional descriptions of the accumulated day sets, used to state the
aggregation claims. -/

/-- Days marked office during the coordinate-mode pass. -/
def officeDaysSpec (M : PyMath) (cfg : CoordConfig) (segments : List Segment) :
    Finset PyStr :=
  (segments.filterMap fun s => (coordEffect M cfg s).officeKey).toFinset

/-- Days marked home during the coordinate-mode pass. -/
def homeDaysSpec (M : PyMath) (cfg : CoordConfig) (segments : List Segment) :
    Finset PyStr :=
  (segments.filterMap fun s => (coordEffect M cfg s).homeKey).toFinset

/-- Days with a working-hour visit in the coordinate-mode pass. -/
def whvDaysSpec (M : PyMath) (cfg : CoordConfig) (segments : List Segment) :
    Finset PyStr :=
  (segments.filterMap fun s => (coordEffect M cfg s).whvKey).toFinset

/-- Days marked office during the tag-mode pass. -/
def tagOfficeDaysSpec (cfg : TagConfig) (segments : List Segment) : Finset PyStr :=
  (segments.filterMap fun s => (tagEffect cfg s).officeKey).toFinset

/-- Days marked home during the tag-mode pass. -/
def tagHomeDaysSpec (cfg : TagConfig) (segments : List Segment) : Finset PyStr :=
  (segments.filterMap fun s => (tagEffect cfg s).homeKey).toFinset

/-- Days with any visit data in the tag-mode pass. -/
def tagDataDaysSpec (cfg : TagConfig) (segments : List Segment) : Finset PyStr :=
  (segments.filterMap fun s => (tagEffect cfg s).dataKey).toFinset

theorem coordFinal_office_eq (M : PyMath) (cfg : CoordConfig)
    (segments : List Segment) :
    (coordFinalState M cfg segments).office_days = officeDaysSpec M cfg segments := by
  ext d
  rw [mem_coord_office]
  simp [officeDaysSpec, List.mem_filterMap]

theorem coordFinal_home_eq (M : PyMath) (cfg : CoordConfig)
    (segments : List Segment) :
    (coordFinalState M cfg segments).home_days = homeDaysSpec M cfg segments := by
  ext d
  rw [mem_coord_home]
  simp [homeDaysSpec, List.mem_filterMap]

theorem coordFinal_whv_eq (M : PyMath) (cfg : CoordConfig)
    (segments : List Segment) :
    (coordFinalState M cfg segments).days_with_working_hour_visits =
      whvDaysSpec M cfg segments := by
  ext d
  rw [mem_coord_whv]
  simp [whvDaysSpec, List.mem_filterMap]

theorem tagFinal_office_eq (cfg : TagConfig) (segments : List Segment) :
    (tagFinalState cfg segments).office_days = tagOfficeDaysSpec cfg segments := by
  ext d
  rw [mem_tag_office]
  simp [tagOfficeDaysSpec, List.mem_filterMap]

theorem tagFinal_home_eq (cfg : TagConfig) (segments : List Segment) :
    (tagFinalState cfg segments).home_days = tagHomeDaysSpec cfg segments := by
  ext d
  rw [mem_tag_home]
  simp [tagHomeDaysSpec, List.mem_filterMap]

theorem tagFinal_data_eq (cfg : TagConfig) (segments : List Segment) :
    (tagFinalState cfg segments).days_with_data = tagDataDaysSpec cfg segments := by
  ext d
  rw [mem_tag_data]
  simp [tagDataDaysSpec, List.mem_filterMap]

theorem sortKeys_toFinset (s : Finset PyStr) : (sortKeys s).toFinset = s :=
  Finset.sort_toFinset strLe s

/-- C1: in both coordinate mode and tag mode, the office, home and elsewhere
result sets are pairwise disjoint: no day key appears in more than one of
them. -/
theorem c1_pairwise_disjoint :
    (∀ (M : PyMath) (cfg : CoordConfig) (segments : List Segment)
        (elsewhereIter : List PyStr) (d : PyStr),
      (d ∈ (categorize_days M cfg segments elsewhereIter).office →
        d ∉ (categorize_days M cfg segments elsewhereIter).home) ∧
      (d ∈ (categorize_days M cfg segments elsewhereIter).office →
        d ∉ (categorize_days M cfg segments elsewhereIter).elsewhere) ∧
      (d ∈ (categorize_days M cfg segments elsewhereIter).home →
        d ∉ (categorize_days M cfg segments elsewhereIter).elsewhere)) ∧
    (∀ (cfg : TagConfig) (segments : List Segment) (d : PyStr),
      (d ∈ (categorize_days_simple cfg segments).office →
        d ∉ (categorize_days_simple cfg segments).home) ∧
      (d ∈ (categorize_days_simple cfg segments).office →
        d ∉ (categorize_days_simple cfg segments).elsewhere) ∧
      (d ∈ (categorize_days_simple cfg segments).home →
        d ∉ (categorize_days_simple cfg segments).elsewhere)) := by
  constructor
  · intro M cfg segments elsewhereIter d
    simp only [categorize_days_office, categorize_days_home,
      categorize_days_elsewhere, mem_sortKeys, home_only_days, elsewhere_days,
      Finset.mem_sdiff]
    tauto
  · intro cfg segments d
    simp only [categorize_days_simple_office, categorize_days_simple_home,
      categorize_days_simple_elsewhere, mem_sortKeys, home_only_days_simple,
      elsewhere_days_simple, Finset.mem_sdiff]
    tauto

/-- Witness for C1 at a concrete input: the WORK-tagged Wednesday visit puts
its day in the office list, and the theorem then excludes it from home. -/
theorem c1_pairwise_disjoint_witness :
    keyWed ∈ (categorize_days_simple cfgTag [segWed]).office ∧
      keyWed ∉ (categorize_days_simple cfgTag [segWed]).home := by
  have h : keyWed ∈ (categorize_days_simple cfgTag [segWed]).office := by
    rw [categorize_days_simple_office, mem_sortKeys]; decide
  exact ⟨h, (c1_pairwise_disjoint.2 cfgTag [segWed] keyWed).1 h⟩

/-- Tag-mode test configuration with a calendar year configured. -/
def cfgTagY : TagConfig :=
  ⟨some 2025, String.toList "9:00-18:00", DAYS_OF_WEEK, WORK_TYPES, HOME_TYPES⟩

/-- C2: after the single pass, home = home_days − office_days; in coordinate
mode elsewhere = has_working_hour_visit_days − office_days − home, while in
tag mode elsewhere = has_data_days − office_days − home (the intentional
asymmetry between the modes); missing = expected_working_days(year) minus the
per-mode base set, and missing is empty when no calendar year is
configured. -/
theorem c2_aggregation_formulas :
    (∀ (M : PyMath) (cfg : CoordConfig) (segments : List Segment)
        (elsewhereIter : List PyStr),
      ((categorize_days M cfg segments elsewhereIter).home).toFinset =
          homeDaysSpec M cfg segments \ officeDaysSpec M cfg segments ∧
      ((categorize_days M cfg segments elsewhereIter).elsewhere).toFinset =
          (whvDaysSpec M cfg segments \ officeDaysSpec M cfg segments) \
            (homeDaysSpec M cfg segments \ officeDaysSpec M cfg segments) ∧
      (∀ y, cfg.calendar_year = some y →
        ((categorize_days M cfg segments elsewhereIter).missing).toFinset =
          get_all_working_days_in_year y cfg.days_of_week \
            whvDaysSpec M cfg segments) ∧
      (cfg.calendar_year = none →
        (categorize_days M cfg segments elsewhereIter).missing = [])) ∧
    (∀ (cfg : TagConfig) (segments : List Segment),
      ((categorize_days_simple cfg segments).home).toFinset =
          tagHomeDaysSpec cfg segments \ tagOfficeDaysSpec cfg segments ∧
      ((categorize_days_simple cfg segments).elsewhere).toFinset =
          (tagDataDaysSpec cfg segments \ tagOfficeDaysSpec cfg segments) \
            (tagHomeDaysSpec cfg segments \ tagOfficeDaysSpec cfg segments) ∧
      (∀ y, cfg.calendar_year = some y →
        ((categorize_days_simple cfg segments).missing).toFinset =
          get_all_working_days_in_year y cfg.days_of_week \
            tagDataDaysSpec cfg segments) ∧
      (cfg.calendar_year = none →
        (categorize_days_simple cfg segments).missing = [])) := by
  constructor
  · intro M cfg segments elsewhereIter
    refine ⟨?_, ?_, ?_, ?_⟩
    · rw [categorize_days_home, sortKeys_toFinset, home_only_days,
        coordFinal_home_eq, coordFinal_office_eq]
    · rw [categorize_days_elsewhere, sortKeys_toFinset, elsewhere_days,
        home_only_days, coordFinal_whv_eq, coordFinal_office_eq,
        coordFinal_home_eq]
    · intro y hy
      rw [categorize_days_missing, sortKeys_toFinset, missing_days, hy,
        coordFinal_whv_eq]
    · intro hy
      rw [categorize_days_missing, missing_days, hy]
      show sortKeys (∅ : Finset PyStr) = []
      exact Finset.sort_empty strLe
  · intro cfg segments
    refine ⟨?_, ?_, ?_, ?_⟩
    · rw [categorize_days_simple_home, sortKeys_toFinset, home_only_days_simple,
        tagFinal_home_eq, tagFinal_office_eq]
    · rw [categorize_days_simple_elsewhere, sortKeys_toFinset,
        elsewhere_days_simple, home_only_days_simple, tagFinal_data_eq,
        tagFinal_office_eq, tagFinal_home_eq]
    · intro y hy
      rw [categorize_days_simple_missing, sortKeys_toFinset, missing_days_simple,
        hy, tagFinal_data_eq]
    · intro hy
      rw [categorize_days_simple_missing, missing_days_simple, hy]
      show sortKeys (∅ : Finset PyStr) = []
      exact Finset.sort_empty strLe

/-- Witness for C2: the year-configured tag run satisfies the missing-days
formula for 2025, and the yearless coordinate run has an empty missing
list. -/
theorem c2_aggregation_formulas_witness :
    cfgTagY.calendar_year = some 2025 ∧
      ((categorize_days_simple cfgTagY [segWed]).missing).toFinset =
        get_all_working_days_in_year 2025 DAYS_OF_WEEK \
          tagDataDaysSpec cfgTagY [segWed] ∧
      cfgCoord.calendar_year = none ∧
      (categorize_days mathZero cfgCoord [segWed] []).missing = [] :=
  ⟨rfl, (c2_aggregation_formulas.2 cfgTagY [segWed]).2.2.1 2025 rfl, rfl,
    (c2_aggregation_formulas.1 mathZero cfgCoord [segWed] []).2.2.2 rfl⟩

theorem parse_latlng_nil : parse_latlng ([] : PyStr) = none := rfl

/-- A segment that passes every gate and lies within the office radius marks
its day office in the coordinate-mode pass. -/
theorem coordEffect_officeKey_of (M : PyMath) (cfg : CoordConfig) (seg : Segment)
    (dt : DateTime) (lat lng : ℚ)
    (hv : seg.isVisit = true)
    (hst : seg.startTime = some dt)
    (hyear : ∀ y, cfg.calendar_year = some y → dt.year = y)
    (hwd : is_working_day (some dt) cfg.days_of_week = true)
    (hwh : is_within_working_hours (some dt) cfg.working_hours = true)
    (hparse : parse_latlng seg.latLng = some (lat, lng))
    (hoff : haversine_distance M lat lng cfg.office_lat cfg.office_lng ≤
      cfg.radius) :
    (coordEffect M cfg seg).officeKey =
      some (formatDate dt.year dt.month dt.day) := by
  rcases hl : seg.latLng with _ | ⟨c, cs⟩
  · rw [hl, parse_latlng_nil] at hparse
    exact absurd hparse (by simp)
  · rw [hl] at hparse
    cases hcy : cfg.calendar_year with
    | none =>
      simp [coordEffect, hv, hst, hcy, hl, hwd, hwh, hparse, hoff]
    | some y =>
      have hyy := hyear y hcy
      simp [coordEffect, hv, hst, hcy, hl, hwd, hwh, hparse, hoff, hyy]

/-- A segment that passes every gate and carries a work tag marks its day
office in the tag-mode pass. -/
theorem tagEffect_officeKey_of (cfg : TagConfig) (seg : Segment) (dt : DateTime)
    (hv : seg.isVisit = true)
    (hst : seg.startTime = some dt)
    (hyear : ∀ y, cfg.calendar_year = some y → dt.year = y)
    (hwd : is_working_day (some dt) cfg.days_of_week = true)
    (hwh : is_within_working_hours (some dt) cfg.working_hours = true)
    (hne : seg.semanticType ≠ [])
    (hsem : seg.semanticType ∈ cfg.work_types) :
    (tagEffect cfg seg).officeKey =
      some (formatDate dt.year dt.month dt.day) := by
  rcases hl : seg.semanticType with _ | ⟨c, cs⟩
  · exact absurd hl hne
  · rw [hl] at hsem
    cases hcy : cfg.calendar_year with
    | none =>
      simp [tagEffect, hv, hst, hcy, hl, hwd, hwh, hsem]
    | some y =>
      have hyy := hyear y hcy
      simp [tagEffect, hv, hst, hcy, hl, hwd, hwh, hsem, hyy]

/-- C3: office takes priority over home.  A qualifying segment that marks a
day office (office-distance within radius in coordinate mode, work tag in tag
mode) puts that day in the office result and keeps it out of the home result,
whatever the other segments of that day do. -/
theorem c3_office_priority :
    (∀ (M : PyMath) (cfg : CoordConfig) (segments : List Segment)
        (elsewhereIter : List PyStr) (seg : Segment) (dt : DateTime)
        (lat lng : ℚ),
      seg ∈ segments →
      seg.isVisit = true →
      seg.startTime = some dt →
      (∀ y, cfg.calendar_year = some y → dt.year = y) →
      is_working_day (some dt) cfg.days_of_week = true →
      is_within_working_hours (some dt) cfg.working_hours = true →
      parse_latlng seg.latLng = some (lat, lng) →
      haversine_distance M lat lng cfg.office_lat cfg.office_lng ≤ cfg.radius →
      formatDate dt.year dt.month dt.day ∈
          (categorize_days M cfg segments elsewhereIter).office ∧
        formatDate dt.year dt.month dt.day ∉
          (categorize_days M cfg segments elsewhereIter).home) ∧
    (∀ (cfg : TagConfig) (segments : List Segment) (seg : Segment)
        (dt : DateTime),
      seg ∈ segments →
      seg.isVisit = true →
      seg.startTime = some dt →
      (∀ y, cfg.calendar_year = some y → dt.year = y) →
      is_working_day (some dt) cfg.days_of_week = true →
      is_within_working_hours (some dt) cfg.working_hours = true →
      seg.semanticType ≠ [] →
      seg.semanticType ∈ cfg.work_types →
      formatDate dt.year dt.month dt.day ∈
          (categorize_days_simple cfg segments).office ∧
        formatDate dt.year dt.month dt.day ∉
          (categorize_days_simple cfg segments).home) := by
  constructor
  · intro M cfg segments elsewhereIter seg dt lat lng hmem hv hst hyear hwd hwh
      hparse hoff
    have hoffice : formatDate dt.year dt.month dt.day ∈
        (coordFinalState M cfg segments).office_days := by
      rw [mem_coord_office]
      exact ⟨seg, hmem,
        coordEffect_officeKey_of M cfg seg dt lat lng hv hst hyear hwd hwh
          hparse hoff⟩
    constructor
    · rw [categorize_days_office, mem_sortKeys]
      exact hoffice
    · rw [categorize_days_home, mem_sortKeys, home_only_days, Finset.mem_sdiff]
      rintro ⟨-, habs⟩
      exact habs hoffice
  · intro cfg segments seg dt hmem hv hst hyear hwd hwh hne hsem
    have hoffice : formatDate dt.year dt.month dt.day ∈
        (tagFinalState cfg segments).office_days := by
      rw [mem_tag_office]
      exact ⟨seg, hmem,
        tagEffect_officeKey_of cfg seg dt hv hst hyear hwd hwh hne hsem⟩
    constructor
    · rw [categorize_days_simple_office, mem_sortKeys]
      exact hoffice
    · rw [categorize_days_simple_home, mem_sortKeys, home_only_days_simple,
        Finset.mem_sdiff]
      rintro ⟨-, habs⟩
      exact habs hoffice

/-- Same-day segment carrying a HOME tag one hour after `segWed`. -/
def segWedHome : Segment :=
  ⟨true, some ⟨2025, 1, 1, 10, 30, 0⟩, String.toList "52.52°, 13.40°",
    String.toList "HOME"⟩

/-- Witness for C3 at a concrete input: a day with one WORK-tagged and one
HOME-tagged visit lands in office and not in home. -/
theorem c3_office_priority_witness :
    keyWed ∈ (categorize_days_simple cfgTag [segWed, segWedHome]).office ∧
      keyWed ∉ (categorize_days_simple cfgTag [segWed, segWedHome]).home :=
  c3_office_priority.2 cfgTag [segWed, segWedHome] segWed dtWed
    (List.mem_cons_self _ _) (by decide) (by decide)
    (fun y hy => by simp [cfgTag] at hy)
    (by decide) (by decide) (by decide) (by decide)

/-! Injectivity of the day-key serialization and structure of the calendar
enumeration. -/

theorem toNat_natDigit {n : Nat} (h : n ≤ 9) : (natDigit n).toNat = 48 + n := by
  interval_cases n <;> decide

theorem natDigit_inj {a b : Nat} (ha : a ≤ 9) (hb : b ≤ 9)
    (h : natDigit a = natDigit b) : a = b := by
  have := congrArg Char.toNat h
  rw [toNat_natDigit ha, toNat_natDigit hb] at this
  omega

theorem formatDate_inj {y m d m' d' : Nat} (hm : m < 100) (hd : d < 100)
    (hm' : m' < 100) (hd' : d' < 100)
    (h : formatDate y m d = formatDate y m' d') : m = m' ∧ d = d' := by
  simp only [formatDate, pad4, pad2, List.cons_append, List.nil_append,
    List.cons.injEq, and_true, true_and] at h
  obtain ⟨hm1, hm2, hd1, hd2⟩ := h
  have e1 := natDigit_inj (by omega) (by omega) hm1
  have e2 := natDigit_inj (by omega) (by omega) hm2
  have e3 := natDigit_inj (by omega) (by omega) hd1
  have e4 := natDigit_inj (by omega) (by omega) hd2
  omega

theorem daysInMonth_le (y m : Nat) : daysInMonth y m ≤ 31 := by
  unfold daysInMonth
  split
  · split <;> omega
  · split <;> omega

theorem mem_allDatesInYear {y : Nat} {p : Nat × Nat}
    (hp : p ∈ allDatesInYear y) :
    1 ≤ p.1 ∧ p.1 ≤ 12 ∧ 1 ≤ p.2 ∧ p.2 ≤ 31 := by
  unfold allDatesInYear at hp
  simp only [List.mem_flatMap, List.mem_map, List.mem_range] at hp
  obtain ⟨m0, hm0, d0, hd0, rfl⟩ := hp
  have := daysInMonth_le y (m0 + 1)
  simp only
  omega

theorem allDatesInYear_nodup (y : Nat) : (allDatesInYear y).Nodup := by
  unfold allDatesInYear
  rw [List.nodup_flatMap]
  constructor
  · intro m0 _
    exact (List.nodup_range _).map fun d0 d0' h => by
      simpa using congrArg Prod.snd h
  · refine (List.pairwise_lt_range 12).imp ?_
    intro a b hab
    intro x hxa hxb
    simp only [List.mem_map, List.mem_range] at hxa hxb
    obtain ⟨d0, -, rfl⟩ := hxa
    obtain ⟨d0', -, he⟩ := hxb
    have := congrArg Prod.fst he
    simp only at this
    omega

/-- Membership in the expected-working-days set: exactly the serialized dates
of the year whose weekday name is in the configured list. -/
theorem mem_get_all_working_days (year : Nat) (days_of_week : List PyStr)
    (k : PyStr) :
    k ∈ get_all_working_days_in_year year days_of_week ↔
      ∃ p ∈ allDatesInYear year,
        dayName year p.1 p.2 ∈ days_of_week ∧ k = formatDate year p.1 p.2 := by
  unfold get_all_working_days_in_year
  simp only [List.mem_toFinset, List.mem_map, List.mem_filter,
    decide_eq_true_eq]
  constructor
  · rintro ⟨p, ⟨hp, hdow⟩, rfl⟩
    exact ⟨p, hp, hdow, rfl⟩
  · rintro ⟨p, hp, hdow, rfl⟩
    exact ⟨p, ⟨hp, hdow⟩, rfl⟩

theorem get_all_working_days_nodup (year : Nat) (days_of_week : List PyStr) :
    (((allDatesInYear year).filter
        (fun p => decide (dayName year p.1 p.2 ∈ days_of_week))).map
      (fun p => formatDate year p.1 p.2)).Nodup := by
  refine List.Nodup.map_on ?_ ((allDatesInYear_nodup year).filter _)
  intro p hp q hq he
  have hp' := mem_allDatesInYear (List.mem_of_mem_filter hp)
  have hq' := mem_allDatesInYear (List.mem_of_mem_filter hq)
  have := formatDate_inj (by omega) (by omega) (by omega) (by omega) he
  exact Prod.ext this.1 this.2

/-- Coverage in coordinate mode: with a year configured, every expected
working day lands in one of the four result lists.  Office and home marks are
only ever placed on days that already received the working-hour-visit mark,
and the elsewhere set picks up every remaining working-hour-visit day, so a
day escapes the first three lists only by missing the base set — and is then
caught by `missing`. -/
theorem coverage_coord (M : PyMath) (cfg : CoordConfig) (segments : List Segment)
    (elsewhereIter : List PyStr) (y : Nat) (d : PyStr)
    (hy : cfg.calendar_year = some y)
    (hd : d ∈ get_all_working_days_in_year y cfg.days_of_week) :
    d ∈ (categorize_days M cfg segments elsewhereIter).office ∨
    d ∈ (categorize_days M cfg segments elsewhereIter).home ∨
    d ∈ (categorize_days M cfg segments elsewhereIter).elsewhere ∨
    d ∈ (categorize_days M cfg segments elsewhereIter).missing := by
  simp only [categorize_days_office, categorize_days_home,
    categorize_days_elsewhere, categorize_days_missing, mem_sortKeys,
    home_only_days, elsewhere_days, missing_days, hy, Finset.mem_sdiff]
  by_cases hwhv :
      d ∈ (coordFinalState M cfg segments).days_with_working_hour_visits
  · by_cases hoff : d ∈ (coordFinalState M cfg segments).office_days
    · exact Or.inl hoff
    · by_cases hhome : d ∈ (coordFinalState M cfg segments).home_days
      · exact Or.inr (Or.inl ⟨hhome, hoff⟩)
      · exact Or.inr (Or.inr (Or.inl ⟨⟨hwhv, hoff⟩, fun h => absurd h.1 hhome⟩))
  · exact Or.inr (Or.inr (Or.inr ⟨hd, hwhv⟩))

/-- Coverage in tag mode, over the has-data base set. -/
theorem coverage_tag (cfg : TagConfig) (segments : List Segment) (y : Nat)
    (d : PyStr) (hy : cfg.calendar_year = some y)
    (hd : d ∈ get_all_working_days_in_year y cfg.days_of_week) :
    d ∈ (categorize_days_simple cfg segments).office ∨
    d ∈ (categorize_days_simple cfg segments).home ∨
    d ∈ (categorize_days_simple cfg segments).elsewhere ∨
    d ∈ (categorize_days_simple cfg segments).missing := by
  simp only [categorize_days_simple_office, categorize_days_simple_home,
    categorize_days_simple_elsewhere, categorize_days_simple_missing,
    mem_sortKeys, home_only_days_simple, elsewhere_days_simple,
    missing_days_simple, hy, Finset.mem_sdiff]
  by_cases hdata : d ∈ (tagFinalState cfg segments).days_with_data
  · by_cases hoff : d ∈ (tagFinalState cfg segments).office_days
    · exact Or.inl hoff
    · by_cases hhome : d ∈ (tagFinalState cfg segments).home_days
      · exact Or.inr (Or.inl ⟨hhome, hoff⟩)
      · exact Or.inr (Or.inr (Or.inl ⟨⟨hdata, hoff⟩, fun h => absurd h.1 hhome⟩))
  · exact Or.inr (Or.inr (Or.inr ⟨hd, hdata⟩))

/-- Counterexample to C4 as stated: there is no valid input, in either mode,
with a calendar year configured, for which an expected working day appears in
none of the four result sets — the union always covers the expected days. -/
theorem c4_counterexample :
    ¬ ((∃ (M : PyMath) (cfg : CoordConfig) (segments : List Segment)
          (elsewhereIter : List PyStr) (y : Nat) (d : PyStr),
        cfg.calendar_year = some y ∧
        d ∈ get_all_working_days_in_year y cfg.days_of_week ∧
        d ∉ (categorize_days M cfg segments elsewhereIter).office ∧
        d ∉ (categorize_days M cfg segments elsewhereIter).home ∧
        d ∉ (categorize_days M cfg segments elsewhereIter).elsewhere ∧
        d ∉ (categorize_days M cfg segments elsewhereIter).missing) ∨
      (∃ (cfg : TagConfig) (segments : List Segment) (y : Nat) (d : PyStr),
        cfg.calendar_year = some y ∧
        d ∈ get_all_working_days_in_year y cfg.days_of_week ∧
        d ∉ (categorize_days_simple cfg segments).office ∧
        d ∉ (categorize_days_simple cfg segments).home ∧
        d ∉ (categorize_days_simple cfg segments).elsewhere ∧
        d ∉ (categorize_days_simple cfg segments).missing)) := by
  rintro (⟨M, cfg, segments, elsewhereIter, y, d, hy, hd, h1, h2, h3, h4⟩ |
    ⟨cfg, segments, y, d, hy, hd, h1, h2, h3, h4⟩)
  · rcases coverage_coord M cfg segments elsewhereIter y d hy hd with
      h | h | h | h
    · exact h1 h
    · exact h2 h
    · exact h3 h
    · exact h4 h
  · rcases coverage_tag cfg segments y d hy hd with h | h | h | h
    · exact h1 h
    · exact h2 h
    · exact h3 h
    · exact h4 h

/-- C4 amended: with a calendar year configured, the union
office ∪ home ∪ elsewhere ∪ missing covers every expected working day, in both
modes. -/
theorem c4_union_covers_expected :
    (∀ (M : PyMath) (cfg : CoordConfig) (segments : List Segment)
        (elsewhereIter : List PyStr) (y : Nat) (d : PyStr),
      cfg.calendar_year = some y →
      d ∈ get_all_working_days_in_year y cfg.days_of_week →
      d ∈ (categorize_days M cfg segments elsewhereIter).office ∨
      d ∈ (categorize_days M cfg segments elsewhereIter).home ∨
      d ∈ (categorize_days M cfg segments elsewhereIter).elsewhere ∨
      d ∈ (categorize_days M cfg segments elsewhereIter).missing) ∧
    (∀ (cfg : TagConfig) (segments : List Segment) (y : Nat) (d : PyStr),
      cfg.calendar_year = some y →
      d ∈ get_all_working_days_in_year y cfg.days_of_week →
      d ∈ (categorize_days_simple cfg segments).office ∨
      d ∈ (categorize_days_simple cfg segments).home ∨
      d ∈ (categorize_days_simple cfg segments).elsewhere ∨
      d ∈ (categorize_days_simple cfg segments).missing) :=
  ⟨fun M cfg segments elsewhereIter y d hy hd =>
      coverage_coord M cfg segments elsewhereIter y d hy hd,
    fun cfg segments y d hy hd => coverage_tag cfg segments y d hy hd⟩

/-- The first day of 2025 is among the expected working days. -/
theorem keyWed_mem_expected :
    keyWed ∈ get_all_working_days_in_year 2025 DAYS_OF_WEEK :=
  (mem_get_all_working_days 2025 DAYS_OF_WEEK keyWed).mpr
    ⟨(1, 1), by decide, by decide, by decide⟩

/-- Witness for the amended C4 at a concrete input: 2025-01-01 is an expected
working day of the year-configured tag run with no segments, so it lands in
one of the four lists. -/
theorem c4_union_covers_expected_witness :
    cfgTagY.calendar_year = some 2025 ∧
      keyWed ∈ get_all_working_days_in_year 2025 DAYS_OF_WEEK ∧
      (keyWed ∈ (categorize_days_simple cfgTagY []).office ∨
        keyWed ∈ (categorize_days_simple cfgTagY []).home ∨
        keyWed ∈ (categorize_days_simple cfgTagY []).elsewhere ∨
        keyWed ∈ (categorize_days_simple cfgTagY []).missing) :=
  ⟨rfl, keyWed_mem_expected,
    c4_union_covers_expected.2 cfgTagY [] 2025 keyWed rfl keyWed_mem_expected⟩

/-! Order-independence machinery. -/

theorem listMinQ_perm {l l' : List ℚ} (h : l.Perm l') : listMinQ l = listMinQ l' := by
  induction h with
  | nil => rfl
  | cons x _ ih => simp [listMinQ, ih]
  | swap x y l =>
    show optMinQ (some y) (optMinQ (some x) (listMinQ l)) =
      optMinQ (some x) (optMinQ (some y) (listMinQ l))
    rw [← optMinQ_assoc, optMinQ_comm (some y) (some x), optMinQ_assoc]
  | trans _ _ ih1 ih2 => rw [ih1, ih2]

theorem coordFinal_perm (M : PyMath) (cfg : CoordConfig)
    {segments segments' : List Segment} (h : segments.Perm segments') :
    (coordFinalState M cfg segments).office_days =
        (coordFinalState M cfg segments').office_days ∧
      (coordFinalState M cfg segments).home_days =
        (coordFinalState M cfg segments').home_days ∧
      (coordFinalState M cfg segments).days_with_working_hour_visits =
        (coordFinalState M cfg segments').days_with_working_hour_visits ∧
      ∀ day, dmdFind (coordFinalState M cfg segments).day_min_distances day =
        dmdFind (coordFinalState M cfg segments').day_min_distances day := by
  refine ⟨?_, ?_, ?_, ?_⟩
  · rw [coordFinal_office_eq, coordFinal_office_eq]
    exact List.toFinset_eq_of_perm _ _ (h.filterMap _)
  · rw [coordFinal_home_eq, coordFinal_home_eq]
    exact List.toFinset_eq_of_perm _ _ (h.filterMap _)
  · rw [coordFinal_whv_eq, coordFinal_whv_eq]
    exact List.toFinset_eq_of_perm _ _ (h.filterMap _)
  · intro day
    rw [dmdFind_final, dmdFind_final]
    exact listMinQ_perm (h.filterMap _)

theorem tierFold_congr {dmd dmd' : List (PyStr × ℚ)}
    (h : ∀ day, dmdFind dmd day = dmdFind dmd' day) (iter : List PyStr)
    (b : Tiers) : iter.foldl (tierStep dmd) b = iter.foldl (tierStep dmd') b := by
  rw [tierFold_spec, tierFold_spec]
  have hl : ∀ x ∈ iter, inLocalTier dmd x = inLocalTier dmd' x := fun x _ => by
    unfold inLocalTier; rw [h x]
  have hr : ∀ x ∈ iter, inRegionalTier dmd x = inRegionalTier dmd' x :=
    fun x _ => by unfold inRegionalTier; rw [h x]
  have hn : ∀ x ∈ iter, inNationalTier dmd x = inNationalTier dmd' x :=
    fun x _ => by unfold inNationalTier; rw [h x]
  have hi : ∀ x ∈ iter, inInternationalTier dmd x = inInternationalTier dmd' x :=
    fun x _ => by unfold inInternationalTier; rw [h x]
  rw [List.filter_congr hl, List.filter_congr hr, List.filter_congr hn,
    List.filter_congr hi]

/-- C5: reordering the input segment list changes nothing — in coordinate mode
for any fixed enumeration order of the elsewhere set, and in tag mode
outright. -/
theorem c5_order_independence :
    (∀ (M : PyMath) (cfg : CoordConfig) (segments segments' : List Segment)
        (elsewhereIter : List PyStr), segments.Perm segments' →
      categorize_days M cfg segments elsewhereIter =
        categorize_days M cfg segments' elsewhereIter) ∧
    (∀ (cfg : TagConfig) (segments segments' : List Segment),
      segments.Perm segments' →
      categorize_days_simple cfg segments = categorize_days_simple cfg segments') := by
  constructor
  · intro M cfg segments segments' elsewhereIter h
    obtain ⟨hoff, hhome, hwhv, hdmd⟩ := coordFinal_perm M cfg h
    have hho : home_only_days M cfg segments = home_only_days M cfg segments' := by
      unfold home_only_days; rw [hoff, hhome]
    have hels : elsewhere_days M cfg segments = elsewhere_days M cfg segments' := by
      unfold elsewhere_days; rw [hwhv, hoff, hho]
    have hmiss : missing_days M cfg segments = missing_days M cfg segments' := by
      unfold missing_days; cases cfg.calendar_year <;> simp [hwhv]
    have htier := tierFold_congr hdmd elsewhereIter ⟨[], [], [], []⟩
    unfold categorize_days
    simp only [CoordResult.mk.injEq]
    exact ⟨congrArg sortKeys hoff, congrArg sortKeys hho, congrArg sortKeys hels,
      congrArg sortKeys hmiss, congrArg Tiers.tierLocal htier,
      congrArg Tiers.tierRegional htier, congrArg Tiers.tierNational htier,
      congrArg Tiers.tierInternational htier⟩
  · intro cfg segments segments' h
    have hoff : (tagFinalState cfg segments).office_days =
        (tagFinalState cfg segments').office_days := by
      rw [tagFinal_office_eq, tagFinal_office_eq]
      exact List.toFinset_eq_of_perm _ _ (h.filterMap _)
    have hhome : (tagFinalState cfg segments).home_days =
        (tagFinalState cfg segments').home_days := by
      rw [tagFinal_home_eq, tagFinal_home_eq]
      exact List.toFinset_eq_of_perm _ _ (h.filterMap _)
    have hdata : (tagFinalState cfg segments).days_with_data =
        (tagFinalState cfg segments').days_with_data := by
      rw [tagFinal_data_eq, tagFinal_data_eq]
      exact List.toFinset_eq_of_perm _ _ (h.filterMap _)
    have hho : home_only_days_simple cfg segments =
        home_only_days_simple cfg segments' := by
      unfold home_only_days_simple; rw [hoff, hhome]
    have hels : elsewhere_days_simple cfg segments =
        elsewhere_days_simple cfg segments' := by
      unfold elsewhere_days_simple; rw [hdata, hoff, hho]
    have hmiss : missing_days_simple cfg segments =
        missing_days_simple cfg segments' := by
      unfold missing_days_simple; cases cfg.calendar_year <;> simp [hdata]
    unfold categorize_days_simple
    rw [hoff, hho, hels, hmiss]

/-- Witness for C5 at a concrete input: swapping two same-day segments leaves
the tag-mode result unchanged. -/
theorem c5_order_independence_witness :
    ([segWed, segWedHome] : List Segment).Perm [segWedHome, segWed] ∧
      categorize_days_simple cfgTag [segWed, segWedHome] =
        categorize_days_simple cfgTag [segWedHome, segWed] :=
  ⟨List.Perm.swap segWedHome segWed [],
    c5_order_independence.2 cfgTag [segWed, segWedHome] [segWedHome, segWed]
      (List.Perm.swap segWedHome segWed [])⟩

/-! Claim C7: behaviour of the coordinate parser. -/

/-- Characters a decimal float token may contain. -/
def isFloatChar (c : Char) : Bool := c.isDigit || c == '.' || c == '+' || c == '-'

/-- Optional degree sign. -/
def degOpt (b : Bool) : PyStr := if b then ['°'] else []

theorem floatChar_props {c : Char} (h : isFloatChar c = true) :
    c ≠ ',' ∧ c ≠ '°' ∧ c.isWhitespace = false := by
  simp only [isFloatChar, Bool.or_eq_true, beq_iff_eq] at h
  rcases h with ((h | rfl) | rfl) | rfl
  · refine ⟨?_, ?_, ?_⟩
    · rintro rfl; exact absurd h (by decide)
    · rintro rfl; exact absurd h (by decide)
    · cases hw : c.isWhitespace
      · rfl
      · simp only [Char.isWhitespace, Bool.or_eq_true, beq_iff_eq,
          decide_eq_true_eq] at hw
        rcases hw with ((rfl | rfl) | rfl) | rfl <;> exact absurd h (by decide)
  · exact ⟨by decide, by decide, by decide⟩
  · exact ⟨by decide, by decide, by decide⟩
  · exact ⟨by decide, by decide, by decide⟩

theorem pySplit_no_sep {sep : Char} :
    ∀ {s : PyStr}, (∀ c ∈ s, c ≠ sep) → pySplit sep s = [s]
  | [], _ => rfl
  | c :: cs, h => by
    have hc : c ≠ sep := h c (List.mem_cons_self c cs)
    have ih := pySplit_no_sep (s := cs) fun d hd => h d (List.mem_cons_of_mem c hd)
    simp only [pySplit, if_neg hc, ih]

theorem pySplit_append {sep : Char} :
    ∀ {a r : PyStr}, (∀ c ∈ a, c ≠ sep) →
      pySplit sep (a ++ sep :: r) = a :: pySplit sep r
  | [], r, _ => by simp [pySplit]
  | c :: a, r, h => by
    have hc : c ≠ sep := h c (List.mem_cons_self c a)
    have ih := pySplit_append (a := a) (r := r) fun d hd =>
      h d (List.mem_cons_of_mem c hd)
    simp only [List.cons_append, pySplit, if_neg hc, List.append_eq, ih]

theorem dropWhile_eq_self_of {p : Char → Bool} :
    ∀ {s : PyStr}, (∀ c ∈ s, p c = false) → s.dropWhile p = s
  | [], _ => rfl
  | c :: cs, h => by
    simp only [List.dropWhile_cons, h c (List.mem_cons_self c cs),
      Bool.false_eq_true, if_false]

theorem pyStrip_eq_self {s : PyStr} (h : ∀ c ∈ s, c.isWhitespace = false) :
    pyStrip s = s := by
  unfold pyStrip
  rw [dropWhile_eq_self_of h,
    dropWhile_eq_self_of (fun c hc => h c (List.mem_reverse.mp hc)),
    List.reverse_reverse]

theorem pyRemove_eq_self {x : Char} {s : PyStr} (h : ∀ c ∈ s, c ≠ x) :
    pyRemove x s = s :=
  List.filter_eq_self.mpr fun c hc => by
    simpa using h c hc

theorem pyRemove_degOpt (d : Bool) : pyRemove '°' (degOpt d) = [] := by
  cases d <;> rfl

/-- Counterexample to C7 as stated: an input with the wrong field count is
not always rejected.  `"1, 2, 3"` splits into three comma-separated fields —
malformed by the claim's taxonomy — yet the source reads only `parts[0]` and
`parts[1]` and returns the success value `(1.0, 2.0)`, not a failure. -/
theorem c7_parse_latlng_counterexample :
    pySplit ',' (pyRemove '°' (String.toList "1, 2, 3")) =
        [String.toList "1", String.toList " 2", String.toList " 3"] ∧
      parse_latlng (String.toList "1, 2, 3") = some (1, 2) :=
  ⟨by decide, by decide⟩

/-- C7 amended: `parse_latlng` maps every well-formed `"<float>°, <float>°"`
string (degree signs optional) to the pair of its parsed floats; it returns
the failure value — not an exception — for every input with fewer than two
comma-separated fields (equivalently, with no comma: this covers `"52.52"`
and the empty string) and for every input whose first or second field does
not float-parse; but an input with more than two fields is accepted, the
fields beyond the second being silently ignored. -/
theorem c7_parse_latlng_amended :
    (∀ (a b : PyStr) (x y : ℚ) (d1 d2 : Bool),
      a.all isFloatChar = true → b.all isFloatChar = true →
      pyFloat a = some x → pyFloat b = some y →
      parse_latlng (a ++ degOpt d1 ++ ',' :: ' ' :: (b ++ degOpt d2)) =
        some (x, y)) ∧
    (∀ s : PyStr, (∀ c ∈ s, c ≠ ',') → parse_latlng s = none) ∧
    (∀ (s p0 p1 : PyStr) (rest : List PyStr),
      pySplit ',' (pyRemove '°' s) = p0 :: p1 :: rest →
      pyFloat (pyStrip p0) = none ∨ pyFloat (pyStrip p1) = none →
      parse_latlng s = none) ∧
    (∀ (a b t : PyStr) (x y : ℚ),
      a.all isFloatChar = true → b.all isFloatChar = true →
      pyFloat a = some x → pyFloat b = some y →
      parse_latlng (a ++ ',' :: ' ' :: (b ++ ',' :: t)) = some (x, y)) ∧
    parse_latlng (String.toList "52.52") = none ∧
    parse_latlng (String.toList "abc, def") = none ∧
    parse_latlng ([] : PyStr) = none := by
  refine ⟨?_, ?_, ?_, ?_, by decide, by decide, rfl⟩
  · intro a b x y d1 d2 ha hb hx hy
    have ha' : ∀ c ∈ a, c ≠ ',' ∧ c ≠ '°' ∧ c.isWhitespace = false := fun c hc =>
      floatChar_props (List.all_eq_true.mp ha c hc)
    have hb' : ∀ c ∈ b, c ≠ ',' ∧ c ≠ '°' ∧ c.isWhitespace = false := fun c hc =>
      floatChar_props (List.all_eq_true.mp hb c hc)
    unfold parse_latlng
    have hrem : pyRemove '°' (a ++ degOpt d1 ++ ',' :: ' ' :: (b ++ degOpt d2)) =
        a ++ ',' :: ' ' :: b := by
      unfold pyRemove
      rw [List.filter_append, List.filter_append]
      rw [show List.filter (fun c => decide (c ≠ '°')) a = a from
        pyRemove_eq_self fun c hc => (ha' c hc).2.1]
      rw [show List.filter (fun c => decide (c ≠ '°')) (degOpt d1) = [] from
        pyRemove_degOpt d1]
      simp only [List.filter_cons, decide_eq_true_eq]
      rw [if_pos (by decide : (',' : Char) ≠ '°'),
        if_pos (by decide : (' ' : Char) ≠ '°')]
      rw [List.filter_append]
      rw [show List.filter (fun c => decide (c ≠ '°')) b = b from
        pyRemove_eq_self fun c hc => (hb' c hc).2.1]
      rw [show List.filter (fun c => decide (c ≠ '°')) (degOpt d2) = [] from
        pyRemove_degOpt d2]
      simp
    rw [hrem]
    rw [pySplit_append fun c hc => (ha' c hc).1]
    rw [pySplit_no_sep (s := ' ' :: b) (by
      intro c hc
      rcases List.mem_cons.mp hc with rfl | hc
      · decide
      · exact (hb' c hc).1)]
    show (match pyFloat (pyStrip a), pyFloat (pyStrip (' ' :: b)) with
      | some lat, some lng => some (lat, lng)
      | _, _ => none) = some (x, y)
    rw [pyStrip_eq_self fun c hc => (ha' c hc).2.2]
    rw [show pyStrip (' ' :: b) = b by
      unfold pyStrip
      rw [List.dropWhile_cons_of_pos (by decide), dropWhile_eq_self_of
        fun c hc => (hb' c hc).2.2, dropWhile_eq_self_of
        fun c hc => (hb' c (List.mem_reverse.mp hc)).2.2, List.reverse_reverse]]
    rw [hx, hy]
  · intro s hs
    unfold parse_latlng
    rw [pySplit_no_sep (s := pyRemove '°' s)
      fun c hc => hs c (List.mem_of_mem_filter hc)]
  · intro s p0 p1 rest hsplit hfail
    unfold parse_latlng
    rw [hsplit]
    show (match pyFloat (pyStrip p0), pyFloat (pyStrip p1) with
      | some lat, some lng => some (lat, lng)
      | _, _ => none) = none
    rcases hfail with h0 | h1
    · rw [h0]
    · cases h0 : pyFloat (pyStrip p0) with
      | none => rfl
      | some v => rw [h1]
  · intro a b t x y ha hb hx hy
    have ha' : ∀ c ∈ a, c ≠ ',' ∧ c ≠ '°' ∧ c.isWhitespace = false := fun c hc =>
      floatChar_props (List.all_eq_true.mp ha c hc)
    have hb' : ∀ c ∈ b, c ≠ ',' ∧ c ≠ '°' ∧ c.isWhitespace = false := fun c hc =>
      floatChar_props (List.all_eq_true.mp hb c hc)
    unfold parse_latlng
    have hrem : pyRemove '°' (a ++ ',' :: ' ' :: (b ++ ',' :: t)) =
        a ++ ',' :: ' ' :: (b ++ ',' :: pyRemove '°' t) := by
      unfold pyRemove
      rw [List.filter_append]
      rw [show List.filter (fun c => decide (c ≠ '°')) a = a from
        pyRemove_eq_self fun c hc => (ha' c hc).2.1]
      simp only [List.filter_cons, decide_eq_true_eq]
      rw [if_pos (by decide : (',' : Char) ≠ '°'),
        if_pos (by decide : (' ' : Char) ≠ '°')]
      rw [List.filter_append]
      rw [show List.filter (fun c => decide (c ≠ '°')) b = b from
        pyRemove_eq_self fun c hc => (hb' c hc).2.1]
      simp only [List.filter_cons, decide_eq_true_eq]
      rw [if_pos (by decide : (',' : Char) ≠ '°')]
    rw [hrem]
    rw [pySplit_append fun c hc => (ha' c hc).1]
    rw [show (' ' : Char) :: (b ++ ',' :: pyRemove '°' t) =
      (' ' :: b) ++ ',' :: pyRemove '°' t from (List.cons_append _ _ _).symm]
    rw [pySplit_append (a := ' ' :: b) (by
      intro c hc
      rcases List.mem_cons.mp hc with rfl | hc
      · decide
      · exact (hb' c hc).1)]
    show (match pyFloat (pyStrip a), pyFloat (pyStrip (' ' :: b)) with
      | some lat, some lng => some (lat, lng)
      | _, _ => none) = some (x, y)
    rw [pyStrip_eq_self fun c hc => (ha' c hc).2.2]
    rw [show pyStrip (' ' :: b) = b by
      unfold pyStrip
      rw [List.dropWhile_cons_of_pos (by decide), dropWhile_eq_self_of
        fun c hc => (hb' c hc).2.2, dropWhile_eq_self_of
        fun c hc => (hb' c (List.mem_reverse.mp hc)).2.2, List.reverse_reverse]]
    rw [hx, hy]

/-- Witness for the amended C7 at concrete inputs: `"52°, 13°"` parses to
`(52, 13)`, the comma-free `"52.52"` fails, and the three-field `"1, 2, 3"`
is accepted as `(1, 2)`. -/
theorem c7_parse_latlng_amended_witness :
    (String.toList "52").all isFloatChar = true ∧
      pyFloat (String.toList "52") = some 52 ∧
      pyFloat (String.toList "13") = some 13 ∧
      parse_latlng (String.toList "52" ++ degOpt true ++ ',' :: ' ' ::
          (String.toList "13" ++ degOpt true)) = some (52, 13) ∧
      (∀ c ∈ String.toList "52.52", c ≠ ',') ∧
      parse_latlng (String.toList "52.52") = none ∧
      parse_latlng (String.toList "1" ++ ',' :: ' ' ::
          (String.toList "2" ++ ',' :: String.toList " 3")) = some (1, 2) :=
  ⟨by decide, by decide, by decide,
    c7_parse_latlng_amended.1 (String.toList "52") (String.toList "13") 52 13
      true true (by decide) (by decide) (by decide) (by decide),
    by decide,
    c7_parse_latlng_amended.2.1 (String.toList "52.52") (by decide),
    c7_parse_latlng_amended.2.2.2.1 (String.toList "1") (String.toList "2")
      (String.toList " 3") 1 2 (by decide) (by decide) (by decide) (by decide)⟩

/-! Claim C8: behaviour of the working-hours predicate. -/

theorem digit_props {c : Char} (h : c.isDigit = true) :
    c ≠ '+' ∧ c ≠ '-' ∧ c ≠ ':' ∧ c.isWhitespace = false := by
  refine ⟨?_, ?_, ?_, ?_⟩
  · rintro rfl; exact absurd h (by decide)
  · rintro rfl; exact absurd h (by decide)
  · rintro rfl; exact absurd h (by decide)
  · cases hw : c.isWhitespace
    · rfl
    · simp only [Char.isWhitespace, Bool.or_eq_true, beq_iff_eq,
        decide_eq_true_eq] at hw
      rcases hw with ((rfl | rfl) | rfl) | rfl <;> exact absurd h (by decide)

theorem isDigit_natDigit {k : Nat} (hk : k ≤ 9) : (natDigit k).isDigit = true := by
  interval_cases k <;> decide

theorem digitVal_natDigit {k : Nat} (hk : k ≤ 9) : digitVal (natDigit k) = k := by
  unfold digitVal
  rw [toNat_natDigit hk]
  omega

theorem pad2_all_digits (n : Nat) : ∀ c ∈ pad2 n, c.isDigit = true := by
  intro c hc
  rcases List.mem_cons.mp hc with rfl | hc
  · exact isDigit_natDigit (by omega)
  · rcases List.mem_cons.mp hc with rfl | hc
    · exact isDigit_natDigit (by omega)
    · exact absurd hc (List.not_mem_nil c)

theorem pyInt_pad2 {h : Nat} (hh : h < 100) : pyInt (pad2 h) = some (h : Int) := by
  have hd1 : (natDigit (h / 10 % 10)).isDigit = true := isDigit_natDigit (by omega)
  have hd2 : (natDigit (h % 10)).isDigit = true := isDigit_natDigit (by omega)
  unfold pyInt
  rw [pyStrip_eq_self fun c hc => (digit_props (pad2_all_digits h c hc)).2.2.2]
  show (if natDigit (h / 10 % 10) = '+' then _
    else if natDigit (h / 10 % 10) = '-' then _
    else (pyDigits (natDigit (h / 10 % 10) :: [natDigit (h % 10)])).map
      (fun n => (n : Int))) = some (h : Int)
  rw [if_neg (digit_props hd1).1, if_neg (digit_props hd1).2.1]
  unfold pyDigits
  rw [if_pos ⟨List.cons_ne_nil _ _, by simp [hd1, hd2]⟩]
  show some ((digitsVal (natDigit (h / 10 % 10) :: [natDigit (h % 10)]) : ℕ) : Int) =
    some (h : Int)
  have : digitsVal (natDigit (h / 10 % 10) :: [natDigit (h % 10)]) = h := by
    unfold digitsVal
    simp only [List.foldl_cons, List.foldl_nil]
    rw [digitVal_natDigit (by omega), digitVal_natDigit (by omega)]
    omega
  rw [this]

/-- The canonical `"HH:MM-HH:MM"` window string. -/
def windowStr (h1 m1 h2 m2 : Nat) : PyStr :=
  (pad2 h1 ++ ':' :: pad2 m1) ++ '-' :: (pad2 h2 ++ ':' :: pad2 m2)

theorem parseWindow_windowStr {h1 m1 h2 m2 : Nat} (hh1 : h1 < 24)
    (hm1 : m1 < 60) (hh2 : h2 < 24) (hm2 : m2 < 60) :
    parseWindow (windowStr h1 m1 h2 m2) =
      some (⟨h1, m1, 0⟩, ⟨h2, m2, 0⟩) := by
  have hns : ∀ (a b : Nat), ∀ c ∈ pad2 a ++ ':' :: pad2 b, c ≠ '-' := by
    intro a b c hc
    rcases List.mem_append.mp hc with hc | hc
    · exact (digit_props (pad2_all_digits a c hc)).2.1
    · rcases List.mem_cons.mp hc with rfl | hc
      · decide
      · exact (digit_props (pad2_all_digits b c hc)).2.1
  unfold parseWindow windowStr
  rw [pySplit_append (hns h1 m1), pySplit_no_sep (hns h2 m2)]
  have hsp : ∀ (a b : Nat), pySplit ':' (pad2 a ++ ':' :: pad2 b) =
      [pad2 a, pad2 b] := by
    intro a b
    rw [pySplit_append fun c hc => (digit_props (pad2_all_digits a c hc)).2.2.1,
      pySplit_no_sep fun c hc => (digit_props (pad2_all_digits b c hc)).2.2.1]
  simp only [hsp, @pyInt_pad2 h1 (by omega), @pyInt_pad2 m1 (by omega),
    @pyInt_pad2 h2 (by omega), @pyInt_pad2 m2 (by omega)]
  rw [if_pos (by omega)]
  simp [Int.toNat_natCast]

/-- C8: for every canonical window string and every parseable timestamp, the
predicate is true iff the wall-clock time lies in the inclusive interval, both
boundary instants included; a malformed timestamp or window yields false. -/
theorem c8_working_hours :
    (∀ (h1 m1 h2 m2 : Nat) (dt : DateTime), h1 < 24 → m1 < 60 → h2 < 24 →
      m2 < 60 →
      (is_within_working_hours (some dt) (windowStr h1 m1 h2 m2) = true ↔
        timeLe ⟨h1, m1, 0⟩ dt.time ∧ timeLe dt.time ⟨h2, m2, 0⟩)) ∧
    (∀ (h1 m1 h2 m2 y mo d : Nat), h1 < 24 → m1 < 60 → h2 < 24 → m2 < 60 →
      timeLe ⟨h1, m1, 0⟩ ⟨h2, m2, 0⟩ →
      is_within_working_hours (some ⟨y, mo, d, h1, m1, 0⟩)
          (windowStr h1 m1 h2 m2) = true ∧
        is_within_working_hours (some ⟨y, mo, d, h2, m2, 0⟩)
          (windowStr h1 m1 h2 m2) = true) ∧
    (∀ w : PyStr, is_within_working_hours none w = false) ∧
    (∀ (w : PyStr) (ts : Option DateTime), parseWindow w = none →
      is_within_working_hours ts w = false) := by
  have hmain : ∀ (h1 m1 h2 m2 : Nat) (dt : DateTime), h1 < 24 → m1 < 60 →
      h2 < 24 → m2 < 60 →
      (is_within_working_hours (some dt) (windowStr h1 m1 h2 m2) = true ↔
        timeLe ⟨h1, m1, 0⟩ dt.time ∧ timeLe dt.time ⟨h2, m2, 0⟩) := by
    intro h1 m1 h2 m2 dt hh1 hm1 hh2 hm2
    unfold is_within_working_hours
    rw [parseWindow_windowStr hh1 hm1 hh2 hm2]
    simp [Bool.and_eq_true, decide_eq_true_eq]
  refine ⟨hmain, ?_, ?_, ?_⟩
  · intro h1 m1 h2 m2 y mo d hh1 hm1 hh2 hm2 hle
    constructor
    · rw [hmain h1 m1 h2 m2 _ hh1 hm1 hh2 hm2]
      exact ⟨Or.inr ⟨rfl, Or.inr ⟨rfl, le_refl 0⟩⟩, hle⟩
    · rw [hmain h1 m1 h2 m2 _ hh1 hm1 hh2 hm2]
      exact ⟨hle, Or.inr ⟨rfl, Or.inr ⟨rfl, le_refl 0⟩⟩⟩
  · intro w
    rfl
  · intro w ts hw
    unfold is_within_working_hours
    cases ts with
    | none => rfl
    | some dt => rw [hw]

/-- Witness for C8 at a concrete input: the 09:00-18:00 window, a 09:30 visit,
and the two boundary instants. -/
theorem c8_working_hours_witness :
    (9 : Nat) < 24 ∧ (0 : Nat) < 60 ∧ (18 : Nat) < 24 ∧
      timeLe ⟨9, 0, 0⟩ ⟨18, 0, 0⟩ ∧
      (is_within_working_hours (some dtWed) (windowStr 9 0 18 0) = true ↔
        timeLe ⟨9, 0, 0⟩ dtWed.time ∧ timeLe dtWed.time ⟨18, 0, 0⟩) ∧
      is_within_working_hours (some ⟨2025, 1, 1, 9, 0, 0⟩)
          (windowStr 9 0 18 0) = true ∧
      is_within_working_hours (some ⟨2025, 1, 1, 18, 0, 0⟩)
          (windowStr 9 0 18 0) = true :=
  ⟨by decide, by decide, by decide, by decide,
    c8_working_hours.1 9 0 18 0 dtWed (by decide) (by decide) (by decide)
      (by decide),
    (c8_working_hours.2.1 9 0 18 0 2025 1 1 (by decide) (by decide) (by decide)
        (by decide) (by decide)).1,
    (c8_working_hours.2.1 9 0 18 0 2025 1 1 (by decide) (by decide) (by decide)
        (by decide) (by decide)).2⟩

set_option maxRecDepth 8000 in
/-- C9: `get_all_working_days_in_year` returns exactly the day keys of the
dates of the year whose weekday name is in the configured list; for 2025 with
Monday-Friday it contains exactly 261 keys, none on a Saturday or Sunday. -/
theorem c9_working_days_2025 :
    (∀ k : PyStr, k ∈ get_all_working_days_in_year 2025 DAYS_OF_WEEK ↔
      ∃ p ∈ allDatesInYear 2025, dayName 2025 p.1 p.2 ∈ DAYS_OF_WEEK ∧
        k = formatDate 2025 p.1 p.2) ∧
    (get_all_working_days_in_year 2025 DAYS_OF_WEEK).card = 261 ∧
    (∀ p ∈ allDatesInYear 2025,
      dayName 2025 p.1 p.2 = String.toList "Saturday" ∨
        dayName 2025 p.1 p.2 = String.toList "Sunday" →
      formatDate 2025 p.1 p.2 ∉ get_all_working_days_in_year 2025 DAYS_OF_WEEK) := by
  refine ⟨mem_get_all_working_days 2025 DAYS_OF_WEEK, ?_, ?_⟩
  · unfold get_all_working_days_in_year
    rw [List.toFinset_card_of_nodup (get_all_working_days_nodup 2025 DAYS_OF_WEEK),
      List.length_map]
    decide
  · intro p hp hss hmem
    obtain ⟨q, hq, hdow, he⟩ :=
      (mem_get_all_working_days 2025 DAYS_OF_WEEK _).mp hmem
    have hpb := mem_allDatesInYear hp
    have hqb := mem_allDatesInYear hq
    obtain ⟨h1, h2⟩ := formatDate_inj (by omega) (by omega) (by omega) (by omega) he
    rw [← h1, ← h2] at hdow
    rcases hss with hss | hss <;> rw [hss] at hdow <;>
      exact absurd hdow (by decide)

/-- Witness for C9 at a concrete input: 2025-01-04 is a Saturday of 2025 and
is not among the expected working days. -/
theorem c9_working_days_2025_witness :
    ((1, 4) : Nat × Nat) ∈ allDatesInYear 2025 ∧
      dayName 2025 1 4 = String.toList "Saturday" ∧
      formatDate 2025 1 4 ∉ get_all_working_days_in_year 2025 DAYS_OF_WEEK :=
  ⟨by decide, by decide,
    c9_working_days_2025.2.2 (1, 4) (by decide) (Or.inl (by decide))⟩

/-! Claims C6 and C10: the distance-tier breakdown. -/

theorem categorize_days_tierLocal (M : PyMath) (cfg : CoordConfig)
    (segments : List Segment) (elsewhereIter : List PyStr) :
    (categorize_days M cfg segments elsewhereIter).tierLocal =
      (elsewhereIter.foldl
        (tierStep (coordFinalState M cfg segments).day_min_distances)
        ⟨[], [], [], []⟩).tierLocal := rfl

theorem categorize_days_tierRegional (M : PyMath) (cfg : CoordConfig)
    (segments : List Segment) (elsewhereIter : List PyStr) :
    (categorize_days M cfg segments elsewhereIter).tierRegional =
      (elsewhereIter.foldl
        (tierStep (coordFinalState M cfg segments).day_min_distances)
        ⟨[], [], [], []⟩).tierRegional := rfl

theorem categorize_days_tierNational (M : PyMath) (cfg : CoordConfig)
    (segments : List Segment) (elsewhereIter : List PyStr) :
    (categorize_days M cfg segments elsewhereIter).tierNational =
      (elsewhereIter.foldl
        (tierStep (coordFinalState M cfg segments).day_min_distances)
        ⟨[], [], [], []⟩).tierNational := rfl

theorem categorize_days_tierInternational (M : PyMath) (cfg : CoordConfig)
    (segments : List Segment) (elsewhereIter : List PyStr) :
    (categorize_days M cfg segments elsewhereIter).tierInternational =
      (elsewhereIter.foldl
        (tierStep (coordFinalState M cfg segments).day_min_distances)
        ⟨[], [], [], []⟩).tierInternational := rfl

/-- A math-module instance making every haversine distance
`6371000 · 2 · (1/125) = 101936` meters (101.936 km: the regional tier). -/
def mathReg : PyMath :=
  ⟨fun _ => 0, fun _ => 0, fun _ => 0, fun _ _ => 1 / 125, fun x => x⟩

/-- The distance every `mathReg` haversine call returns. -/
def distReg : ℚ := 6371000 * (2 * (1 / 125))

theorem haversine_mathReg (lat1 lon1 lat2 lon2 : ℚ) :
    haversine_distance mathReg lat1 lon1 lat2 lon2 = distReg := rfl

/-- Effect of a within-hours weekday visit at `"3, 4"` under `mathReg`: too
far for office or home, recorded with minimum distance `distReg`. -/
theorem coordEffect_reg (dt : DateTime) (st : PyStr)
    (hwd : is_working_day (some dt) DAYS_OF_WEEK = true)
    (hwh : is_within_working_hours (some dt) (String.toList "9:00-18:00") = true) :
    coordEffect mathReg cfgCoord ⟨true, some dt, String.toList "3, 4", st⟩ =
      ⟨some (formatDate dt.year dt.month dt.day),
        some (formatDate dt.year dt.month dt.day), none, none,
        some (formatDate dt.year dt.month dt.day, distReg)⟩ := by
  have hgt : ¬ (distReg ≤ (100 : ℚ)) := by norm_num [distReg]
  have hpar : parse_latlng (String.toList "3, 4") = some ((3 : ℚ), (4 : ℚ)) := by
    decide
  have hcw : cfgCoord.working_hours = String.toList "9:00-18:00" := rfl
  have hcd : cfgCoord.days_of_week = DAYS_OF_WEEK := rfl
  have hcy : cfgCoord.calendar_year = none := rfl
  have hcr : cfgCoord.radius = (100 : ℚ) := rfl
  have hie : (String.toList "3, 4").isEmpty = false := rfl
  unfold coordEffect
  rw [hcw, hcd]
  simp only [hwd, hwh, hpar, haversine_mathReg, min_self, hcy, hcr, hie,
    Bool.true_eq_false, Bool.false_eq_true, if_false, if_neg hgt]

/-- C6: per day the pass records the minimum over all qualifying segments of
min(office-distance, home-distance); every elsewhere day with a recorded
minimum lands in exactly the tier selected by that minimum in kilometers
(`<50` local, `[50,150)` regional, `[150,500)` national, `≥500`
international), and an elsewhere day without a recorded minimum appears in no
tier. -/
theorem c6_distance_tiering :
    ∀ (M : PyMath) (cfg : CoordConfig) (segments : List Segment)
      (elsewhereIter : List PyStr) (day : PyStr),
      elsewhereIter.toFinset = elsewhere_days M cfg segments →
      day ∈ elsewhere_days M cfg segments →
      (dmdFind (coordFinalState M cfg segments).day_min_distances day =
          listMinQ (minContribs M cfg segments day)) ∧
      (∀ q, dmdFind (coordFinalState M cfg segments).day_min_distances day =
          some q →
        (q / 1000 < 50 →
          day ∈ (categorize_days M cfg segments elsewhereIter).tierLocal ∧
          day ∉ (categorize_days M cfg segments elsewhereIter).tierRegional ∧
          day ∉ (categorize_days M cfg segments elsewhereIter).tierNational ∧
          day ∉ (categorize_days M cfg segments elsewhereIter).tierInternational) ∧
        (¬ q / 1000 < 50 → q / 1000 < 150 →
          day ∉ (categorize_days M cfg segments elsewhereIter).tierLocal ∧
          day ∈ (categorize_days M cfg segments elsewhereIter).tierRegional ∧
          day ∉ (categorize_days M cfg segments elsewhereIter).tierNational ∧
          day ∉ (categorize_days M cfg segments elsewhereIter).tierInternational) ∧
        (¬ q / 1000 < 50 → ¬ q / 1000 < 150 → q / 1000 < 500 →
          day ∉ (categorize_days M cfg segments elsewhereIter).tierLocal ∧
          day ∉ (categorize_days M cfg segments elsewhereIter).tierRegional ∧
          day ∈ (categorize_days M cfg segments elsewhereIter).tierNational ∧
          day ∉ (categorize_days M cfg segments elsewhereIter).tierInternational) ∧
        (¬ q / 1000 < 50 → ¬ q / 1000 < 150 → ¬ q / 1000 < 500 →
          day ∉ (categorize_days M cfg segments elsewhereIter).tierLocal ∧
          day ∉ (categorize_days M cfg segments elsewhereIter).tierRegional ∧
          day ∉ (categorize_days M cfg segments elsewhereIter).tierNational ∧
          day ∈ (categorize_days M cfg segments elsewhereIter).tierInternational)) ∧
      (dmdFind (coordFinalState M cfg segments).day_min_distances day = none →
        day ∉ (categorize_days M cfg segments elsewhereIter).tierLocal ∧
        day ∉ (categorize_days M cfg segments elsewhereIter).tierRegional ∧
        day ∉ (categorize_days M cfg segments elsewhereIter).tierNational ∧
        day ∉ (categorize_days M cfg segments elsewhereIter).tierInternational) := by
  intro M cfg segments elsewhereIter day hiter hday
  have hdayIter : day ∈ elsewhereIter := by
    rw [← List.mem_toFinset, hiter]; exact hday
  set dmd := (coordFinalState M cfg segments).day_min_distances with hdmd
  have hL : ∀ d', d' ∈ (categorize_days M cfg segments elsewhereIter).tierLocal ↔
      d' ∈ elsewhereIter ∧ inLocalTier dmd d' = true := by
    intro d'
    rw [categorize_days_tierLocal, tierFold_spec]
    simp [List.mem_filter]
  have hR : ∀ d',
      d' ∈ (categorize_days M cfg segments elsewhereIter).tierRegional ↔
      d' ∈ elsewhereIter ∧ inRegionalTier dmd d' = true := by
    intro d'
    rw [categorize_days_tierRegional, tierFold_spec]
    simp [List.mem_filter]
  have hN : ∀ d',
      d' ∈ (categorize_days M cfg segments elsewhereIter).tierNational ↔
      d' ∈ elsewhereIter ∧ inNationalTier dmd d' = true := by
    intro d'
    rw [categorize_days_tierNational, tierFold_spec]
    simp [List.mem_filter]
  have hI : ∀ d',
      d' ∈ (categorize_days M cfg segments elsewhereIter).tierInternational ↔
      d' ∈ elsewhereIter ∧ inInternationalTier dmd d' = true := by
    intro d'
    rw [categorize_days_tierInternational, tierFold_spec]
    simp [List.mem_filter]
  refine ⟨dmdFind_final M cfg segments day, ?_, ?_⟩
  · intro q hq
    refine ⟨?_, ?_, ?_, ?_⟩
    · intro h50
      refine ⟨(hL day).mpr ⟨hdayIter, ?_⟩, ?_, ?_, ?_⟩
      · simp [inLocalTier, hq, h50]
      · intro hmem
        have hsel := ((hR day).mp hmem).2
        simp [inRegionalTier, hq] at hsel
        exact absurd h50 (not_lt.mpr hsel.1)
      · intro hmem
        have hsel := ((hN day).mp hmem).2
        simp [inNationalTier, hq] at hsel
        exact absurd h50 (not_lt.mpr hsel.1)
      · intro hmem
        have hsel := ((hI day).mp hmem).2
        simp [inInternationalTier, hq] at hsel
        exact absurd h50 (not_lt.mpr hsel.1)
    · intro h50 h150
      refine ⟨?_, (hR day).mpr ⟨hdayIter, ?_⟩, ?_, ?_⟩
      · intro hmem
        have hsel := ((hL day).mp hmem).2
        simp [inLocalTier, hq] at hsel
        exact absurd hsel h50
      · simp [inRegionalTier, hq, h150, not_lt.mp h50]
      · intro hmem
        have hsel := ((hN day).mp hmem).2
        simp [inNationalTier, hq] at hsel
        exact absurd h150 (not_lt.mpr hsel.2.1)
      · intro hmem
        have hsel := ((hI day).mp hmem).2
        simp [inInternationalTier, hq] at hsel
        exact absurd h150 (not_lt.mpr hsel.2.1)
    · intro h50 h150 h500
      refine ⟨?_, ?_, (hN day).mpr ⟨hdayIter, ?_⟩, ?_⟩
      · intro hmem
        have hsel := ((hL day).mp hmem).2
        simp [inLocalTier, hq] at hsel
        exact absurd hsel h50
      · intro hmem
        have hsel := ((hR day).mp hmem).2
        simp [inRegionalTier, hq] at hsel
        exact absurd hsel.2 h150
      · simp [inNationalTier, hq, h500, not_lt.mp h50, not_lt.mp h150]
      · intro hmem
        have hsel := ((hI day).mp hmem).2
        simp [inInternationalTier, hq] at hsel
        exact absurd h500 (not_lt.mpr hsel.2.2)
    · intro h50 h150 h500
      refine ⟨?_, ?_, ?_, (hI day).mpr ⟨hdayIter, ?_⟩⟩
      · intro hmem
        have hsel := ((hL day).mp hmem).2
        simp [inLocalTier, hq] at hsel
        exact absurd hsel h50
      · intro hmem
        have hsel := ((hR day).mp hmem).2
        simp [inRegionalTier, hq] at hsel
        exact absurd hsel.2 h150
      · intro hmem
        have hsel := ((hN day).mp hmem).2
        simp [inNationalTier, hq] at hsel
        exact absurd hsel.2.2 h500
      · simp [inInternationalTier, hq, not_lt.mp h50, not_lt.mp h150,
          not_lt.mp h500]
  · intro hq
    refine ⟨?_, ?_, ?_, ?_⟩
    · intro hmem
      have hsel := ((hL day).mp hmem).2
      simp [inLocalTier, hq] at hsel
    · intro hmem
      have hsel := ((hR day).mp hmem).2
      simp [inRegionalTier, hq] at hsel
    · intro hmem
      have hsel := ((hN day).mp hmem).2
      simp [inNationalTier, hq] at hsel
    · intro hmem
      have hsel := ((hI day).mp hmem).2
      simp [inInternationalTier, hq] at hsel

/-- A within-hours Wednesday visit with coordinate `"3, 4"`. -/
def segCoord : Segment := ⟨true, some dtWed, String.toList "3, 4", []⟩

theorem effect_segCoord : coordEffect mathReg cfgCoord segCoord =
    ⟨some (formatDate 2025 1 1), some (formatDate 2025 1 1), none, none,
      some (formatDate 2025 1 1, distReg)⟩ :=
  coordEffect_reg dtWed [] (by decide) (by decide)

theorem elsewhere_segCoord :
    elsewhere_days mathReg cfgCoord [segCoord] = {formatDate 2025 1 1} := by
  have hoff : (coordFinalState mathReg cfgCoord [segCoord]).office_days = ∅ := by
    ext d
    rw [mem_coord_office]
    simp [effect_segCoord]
  have hhome : (coordFinalState mathReg cfgCoord [segCoord]).home_days = ∅ := by
    ext d
    rw [mem_coord_home]
    simp [effect_segCoord]
  have hwhv : (coordFinalState mathReg cfgCoord
      [segCoord]).days_with_working_hour_visits = {formatDate 2025 1 1} := by
    ext d
    rw [mem_coord_whv]
    simp [effect_segCoord, eq_comm]
  unfold elsewhere_days home_only_days
  rw [hoff, hhome, hwhv]
  simp

theorem dmd_segCoord :
    dmdFind (coordFinalState mathReg cfgCoord [segCoord]).day_min_distances
      (formatDate 2025 1 1) = some distReg := by
  rw [dmdFind_final]
  have : minContribs mathReg cfgCoord [segCoord] (formatDate 2025 1 1) =
      [distReg] := by
    simp [minContribs, effect_segCoord]
  rw [this]
  rfl

/-- Witness for C6 at a concrete input: the 101.936 km day is recorded with
minimum `distReg` and lands in the regional tier only. -/
theorem c6_distance_tiering_witness :
    ([formatDate 2025 1 1] : List PyStr).toFinset =
        elsewhere_days mathReg cfgCoord [segCoord] ∧
      formatDate 2025 1 1 ∈ elsewhere_days mathReg cfgCoord [segCoord] ∧
      dmdFind (coordFinalState mathReg cfgCoord [segCoord]).day_min_distances
          (formatDate 2025 1 1) = some distReg ∧
      ¬ distReg / 1000 < 50 ∧ distReg / 1000 < 150 ∧
      formatDate 2025 1 1 ∉ (categorize_days mathReg cfgCoord [segCoord]
          [formatDate 2025 1 1]).tierLocal ∧
      formatDate 2025 1 1 ∈ (categorize_days mathReg cfgCoord [segCoord]
          [formatDate 2025 1 1]).tierRegional ∧
      formatDate 2025 1 1 ∉ (categorize_days mathReg cfgCoord [segCoord]
          [formatDate 2025 1 1]).tierNational ∧
      formatDate 2025 1 1 ∉ (categorize_days mathReg cfgCoord [segCoord]
          [formatDate 2025 1 1]).tierInternational := by
  have hiter : ([formatDate 2025 1 1] : List PyStr).toFinset =
      elsewhere_days mathReg cfgCoord [segCoord] := by
    rw [elsewhere_segCoord]
    simp
  have hday : formatDate 2025 1 1 ∈ elsewhere_days mathReg cfgCoord [segCoord] := by
    rw [elsewhere_segCoord]
    exact Finset.mem_singleton_self _
  have h50 : ¬ distReg / 1000 < 50 := by norm_num [distReg]
  have h150 : distReg / 1000 < 150 := by norm_num [distReg]
  have happ := (c6_distance_tiering mathReg cfgCoord [segCoord]
    [formatDate 2025 1 1] (formatDate 2025 1 1) hiter hday).2.1 distReg
    dmd_segCoord
  obtain ⟨hnl, hre, hnn, hni⟩ := happ.2.1 h50 h150
  exact ⟨hiter, hday, dmd_segCoord, h50, h150, hnl, hre, hnn, hni⟩

/-- C10 amended: the office, home, elsewhere and missing lists are sorted
lexicographically in both modes.  (The tier lists are not: see the
counterexample.) -/
theorem c10_main_lists_sorted :
    (∀ (M : PyMath) (cfg : CoordConfig) (segments : List Segment)
        (elsewhereIter : List PyStr),
      List.Sorted strLe (categorize_days M cfg segments elsewhereIter).office ∧
      List.Sorted strLe (categorize_days M cfg segments elsewhereIter).home ∧
      List.Sorted strLe
        (categorize_days M cfg segments elsewhereIter).elsewhere ∧
      List.Sorted strLe (categorize_days M cfg segments elsewhereIter).missing) ∧
    (∀ (cfg : TagConfig) (segments : List Segment),
      List.Sorted strLe (categorize_days_simple cfg segments).office ∧
      List.Sorted strLe (categorize_days_simple cfg segments).home ∧
      List.Sorted strLe (categorize_days_simple cfg segments).elsewhere ∧
      List.Sorted strLe (categorize_days_simple cfg segments).missing) :=
  ⟨fun _ _ _ _ =>
    ⟨Finset.sort_sorted strLe _, Finset.sort_sorted strLe _,
      Finset.sort_sorted strLe _, Finset.sort_sorted strLe _⟩,
  fun _ _ =>
    ⟨Finset.sort_sorted strLe _, Finset.sort_sorted strLe _,
      Finset.sort_sorted strLe _, Finset.sort_sorted strLe _⟩⟩

/-- Monday 2025-01-06, 09:30, coordinate `"3, 4"`. -/
def seg6 : Segment := ⟨true, some ⟨2025, 1, 6, 9, 30, 0⟩, String.toList "3, 4", []⟩

/-- Tuesday 2025-01-07, 09:30, coordinate `"3, 4"`. -/
def seg7 : Segment := ⟨true, some ⟨2025, 1, 7, 9, 30, 0⟩, String.toList "3, 4", []⟩

theorem effect_seg6 : coordEffect mathReg cfgCoord seg6 =
    ⟨some (formatDate 2025 1 6), some (formatDate 2025 1 6), none, none,
      some (formatDate 2025 1 6, distReg)⟩ :=
  coordEffect_reg ⟨2025, 1, 6, 9, 30, 0⟩ [] (by decide) (by decide)

theorem effect_seg7 : coordEffect mathReg cfgCoord seg7 =
    ⟨some (formatDate 2025 1 7), some (formatDate 2025 1 7), none, none,
      some (formatDate 2025 1 7, distReg)⟩ :=
  coordEffect_reg ⟨2025, 1, 7, 9, 30, 0⟩ [] (by decide) (by decide)

theorem elsewhere_seg67 :
    elsewhere_days mathReg cfgCoord [seg6, seg7] =
      {formatDate 2025 1 6, formatDate 2025 1 7} := by
  have hoff : (coordFinalState mathReg cfgCoord [seg6, seg7]).office_days = ∅ := by
    ext d
    rw [mem_coord_office]
    simp [effect_seg6, effect_seg7]
  have hhome : (coordFinalState mathReg cfgCoord [seg6, seg7]).home_days = ∅ := by
    ext d
    rw [mem_coord_home]
    simp [effect_seg6, effect_seg7]
  have hwhv : (coordFinalState mathReg cfgCoord
      [seg6, seg7]).days_with_working_hour_visits =
      {formatDate 2025 1 6, formatDate 2025 1 7} := by
    ext d
    rw [mem_coord_whv]
    simp [effect_seg6, effect_seg7, eq_comm]
  unfold elsewhere_days home_only_days
  rw [hoff, hhome, hwhv]
  simp

theorem dmd_seg67_6 :
    dmdFind (coordFinalState mathReg cfgCoord [seg6, seg7]).day_min_distances
      (formatDate 2025 1 6) = some distReg := by
  rw [dmdFind_final]
  have : minContribs mathReg cfgCoord [seg6, seg7] (formatDate 2025 1 6) =
      [distReg] := by
    simp [minContribs, effect_seg6, effect_seg7,
      (by decide : formatDate 2025 1 7 ≠ formatDate 2025 1 6)]
  rw [this]
  rfl

theorem dmd_seg67_7 :
    dmdFind (coordFinalState mathReg cfgCoord [seg6, seg7]).day_min_distances
      (formatDate 2025 1 7) = some distReg := by
  rw [dmdFind_final]
  have : minContribs mathReg cfgCoord [seg6, seg7] (formatDate 2025 1 7) =
      [distReg] := by
    simp [minContribs, effect_seg6, effect_seg7,
      (by decide : formatDate 2025 1 6 ≠ formatDate 2025 1 7)]
  rw [this]
  rfl

/-- Counterexample to C10 as stated: the breakdown loop iterates a Python set,
whose enumeration order is unspecified, and never sorts its output.  Under the
legitimate enumeration `[2025-01-07, 2025-01-06]` of the elsewhere set (each
element exactly once), the regional tier list comes out in that order —
not lexicographically sorted. -/
theorem c10_tier_unsorted_counterexample :
    ([formatDate 2025 1 7, formatDate 2025 1 6] : List PyStr).Nodup ∧
      ([formatDate 2025 1 7, formatDate 2025 1 6] : List PyStr).toFinset =
        elsewhere_days mathReg cfgCoord [seg6, seg7] ∧
      (categorize_days mathReg cfgCoord [seg6, seg7]
          [formatDate 2025 1 7, formatDate 2025 1 6]).tierRegional =
        [formatDate 2025 1 7, formatDate 2025 1 6] ∧
      ¬ List.Sorted strLe
        (categorize_days mathReg cfgCoord [seg6, seg7]
          [formatDate 2025 1 7, formatDate 2025 1 6]).tierRegional := by
  have h50 : ¬ distReg / 1000 < 50 := by norm_num [distReg]
  have h150 : distReg / 1000 < 150 := by norm_num [distReg]
  have htier : (categorize_days mathReg cfgCoord [seg6, seg7]
      [formatDate 2025 1 7, formatDate 2025 1 6]).tierRegional =
      [formatDate 2025 1 7, formatDate 2025 1 6] := by
    rw [categorize_days_tierRegional, tierFold_spec]
    show List.filter _ _ = _
    rw [List.filter_cons_of_pos (by simp [inRegionalTier, dmd_seg67_7, h50, h150]),
      List.filter_cons_of_pos (by simp [inRegionalTier, dmd_seg67_6, h50, h150]),
      List.filter_nil]
  refine ⟨by decide, ?_, htier, ?_⟩
  · rw [elsewhere_seg67]
    simp [Finset.pair_comm]
  · rw [htier]
    intro hs
    have := (List.sorted_cons.mp hs).1 (formatDate 2025 1 6) (by simp)
    exact absurd this (by decide)
